import Mathlib

/-
  Verification development for the zgbc Game Boy emulator core.

  The repository ships the public C API header (src/include/zgbc.h); the
  emulation engine behind it is modelled here, faithful to the design
  document (spec.md), as a shallow embedding: machine integers are Nat with
  explicit reductions modulo 2^8 / 2^16 where the hardware wraps, memories
  are byte lists, and every operation is an executable Lean function.
-/

set_option maxHeartbeats 1000000
set_option maxRecDepth 8000

namespace Zgbc

/-! ## Byte-level serialization primitives

Little-endian fixed-width encoding of natural numbers into byte lists,
used by the save-state serializer. -/
/-- Encode the low w bytes of x, little-endian. -/
def encN : Nat → Nat → List Nat
  | 0, _ => []
  | w + 1, x => x % 256 :: encN w (x / 256)

/-- Decode a w-byte little-endian value from the front of a byte list,
returning the value and the remaining bytes.  Each byte read is reduced
modulo 256, matching a uint8 load; a missing byte reads as 0. -/
def decN : Nat → List Nat → Nat × List Nat
  | 0, l => (0, l)
  | w + 1, l =>
    let r := decN w l.tail
    (l.headI % 256 + 256 * r.1, r.2)

/-- Split off a fixed-size raw byte chunk. -/
def decChunk (n : Nat) (l : List Nat) : List Nat × List Nat :=
  (l.take n, l.drop n)

/-- Encode a flag as one byte. -/
def encB (b : Bool) : List Nat :=
  [if b then 1 else 0]

/-- Decode a flag from one byte (nonzero means true). -/
def decB (l : List Nat) : Bool × List Nat :=
  (decide (l.headI % 256 ≠ 0), l.tail)

/-! ## Data model

Modelled from the spec: the machine aggregate of section 3 of spec.md
(register file, address-space RAM regions, mapper state, PPU state, APU
channel state, timer state, interrupt latches, joypad latch, framebuffer,
audio ring, save-state blob).  The corresponding implementation source is
not in the repository; only the C API header is. -/
/-- Modelled from the spec: the CPU programmer-visible register file
(section 3): 8 general 8-bit registers, PC, SP, flag register f,
interrupt-master-enable and halt flags. -/
structure CpuRegs where
  a : Nat
  f : Nat
  b : Nat
  c : Nat
  d : Nat
  e : Nat
  h : Nat
  l : Nat
  pc : Nat
  sp : Nat
  ime : Bool
  halted : Bool
deriving DecidableEq, Repr

/-- Modelled from the spec: the closed family of cartridge mapper kinds
(MBC0/1/2/3/5-class, section 4.2). -/
inductive MapperKind
  | mbc0
  | mbc1
  | mbc2
  | mbc3
  | mbc5
deriving DecidableEq, Repr

/-- Modelled from the spec: cartridge data derived once at ROM load
(section 3, mapper state entry): the copied ROM image and the total
ROM/RAM bank counts parsed from the cartridge header. -/
structure Cart where
  rom : List Nat
  romBankCount : Nat
  ramBankCount : Nat
deriving DecidableEq, Repr

/-- Modelled from the spec: mutable mapper banking state (section 3):
kind tag, current ROM/RAM bank indices, RAM-enable flag, banking mode. -/
structure MapperState where
  kind : MapperKind
  romBank : Nat
  ramBank : Nat
  ramEnable : Bool
  bankMode : Nat
deriving DecidableEq, Repr

/-- Modelled from the spec: PPU state (section 3): mode, LY, LYC,
dot counter within the 456-cycle line, and the LCD control registers. -/
structure PpuState where
  mode : Nat
  ly : Nat
  lyc : Nat
  dot : Nat
  lcdc : Nat
  stat : Nat
  scy : Nat
  scx : Nat
  wy : Nat
  wx : Nat
  bgp : Nat
deriving DecidableEq, Repr

/-- Modelled from the spec: one APU channel generator (section 3):
frequency timer, duty/wave position, length counter, envelope volume. -/
structure ApuChannel where
  enabled : Bool
  freq : Nat
  timer : Nat
  pos : Nat
  vol : Nat
  len : Nat
deriving DecidableEq, Repr

/-- Modelled from the spec: the 4-channel APU plus the down-sampling
counter producing 44100 Hz stereo output (section 4.4). -/
structure ApuState where
  ch1 : ApuChannel
  ch2 : ApuChannel
  ch3 : ApuChannel
  ch4 : ApuChannel
  sampleCtr : Nat
deriving DecidableEq, Repr

/-- Modelled from the spec: timer state (section 4.5): DIV, TIMA, TMA,
TAC and the cycle sub-counters feeding them. -/
structure TimerState where
  div : Nat
  tima : Nat
  tma : Nat
  tac : Nat
  divCtr : Nat
  timaCtr : Nat
deriving DecidableEq, Repr

/-- Modelled from the spec: interrupt-enable and interrupt-flag latches
(section 4.5). -/
structure IntrState where
  ie : Nat
  iflag : Nat
deriving DecidableEq, Repr

/-- Modelled from the spec: joypad latch (section 4.6): raw button mask
and the I/O register group-select bits. -/
structure JoypadState where
  buttons : Nat
  select : Nat
deriving DecidableEq, Repr

/-- Modelled from the spec: the deterministic machine core: everything
except the audio ring and the audio-render toggle (which only gate sample
emission, section 4.4). -/
structure Core where
  regs : CpuRegs
  cart : Cart
  mapper : MapperState
  timer : TimerState
  intr : IntrState
  joypad : JoypadState
  ppu : PpuState
  apu : ApuState
  vram : List Nat
  wram : List Nat
  oam : List Nat
  hram : List Nat
  extram : List Nat
  fb : List Nat
  fbWork : List Nat
  renderGraphics : Bool
  cycles : Nat
deriving DecidableEq, Repr

/-- Modelled from the spec: the machine composition root behind the
opaque zgbc_t handle (section 2), with the host-drained audio ring and
the audio headless-mode flag. -/
structure zgbc_t where
  core : Core
  audioRing : List Int
  renderAudio : Bool
deriving DecidableEq, Repr

/-! ## Memory bus and cartridge mapper

Modelled from the spec, section 4.2: dispatch by address range, mapper
bank translation, PPU-mode write contention, 0xFF sentinel for
unmapped/disabled regions. -/
/-- Modelled from the spec (section 4.6): hardware-shaped active-low
joypad register encoding, selected by the direction/button group bits. -/
def joypadRead (c : Core) : Nat :=
  let sel := c.joypad.select % 256
  let b := c.joypad.buttons % 256
  let pressed :=
    (if sel &&& 0x10 = 0 then b / 16 % 16 else 0) |||
    (if sel &&& 0x20 = 0 then b % 16 else 0)
  0xC0 ||| (sel &&& 0x30) ||| (0xF ^^^ pressed)

/-- Modelled from the spec: I/O register window reads (section 4.2);
registers outside the modelled subset read as the 0xFF sentinel. -/
def ioRead (c : Core) (r : Nat) : Nat :=
  if r = 0x00 then joypadRead c
  else if r = 0x04 then c.timer.div % 256
  else if r = 0x05 then c.timer.tima % 256
  else if r = 0x06 then c.timer.tma % 256
  else if r = 0x07 then c.timer.tac % 8 ||| 0xF8
  else if r = 0x0F then c.intr.iflag % 32 ||| 0xE0
  else if r = 0x40 then c.ppu.lcdc % 256
  else if r = 0x41 then 0x80 ||| (c.ppu.stat % 256 &&& 0x78) |||
    (if c.ppu.ly = c.ppu.lyc then 4 else 0) ||| c.ppu.mode % 4
  else if r = 0x42 then c.ppu.scy % 256
  else if r = 0x43 then c.ppu.scx % 256
  else if r = 0x44 then c.ppu.ly % 256
  else if r = 0x45 then c.ppu.lyc % 256
  else if r = 0x47 then c.ppu.bgp % 256
  else if r = 0x4A then c.ppu.wy % 256
  else if r = 0x4B then c.ppu.wx % 256
  else 0xFF

/-- Modelled from the spec: full bus read dispatch (section 4.2).  Reads
to unmapped or disabled regions return the fixed 0xFF sentinel; the
result is a byte (reduced modulo 256) and the function is total, so no
read can surface an error. -/
def busRead (c : Core) (addr : Nat) : Nat :=
  let a := addr % 65536
  (if a < 0x4000 then c.cart.rom.getD a 0xFF
   else if a < 0x8000 then
     c.cart.rom.getD (c.mapper.romBank * 0x4000 + (a - 0x4000)) 0xFF
   else if a < 0xA000 then c.vram.getD (a - 0x8000) 0xFF
   else if a < 0xC000 then
     if c.mapper.ramEnable ∧ c.cart.ramBankCount ≠ 0 then
       c.extram.getD (c.mapper.ramBank * 0x2000 + (a - 0xA000)) 0xFF
     else 0xFF
   else if a < 0xE000 then c.wram.getD (a - 0xC000) 0xFF
   else if a < 0xFE00 then c.wram.getD (a - 0xE000) 0xFF
   else if a < 0xFEA0 then c.oam.getD (a - 0xFE00) 0xFF
   else if a < 0xFF00 then 0xFF
   else if a < 0xFF80 then ioRead c (a - 0xFF00)
   else if a < 0xFFFF then c.hram.getD (a - 0xFF80) 0xFF
   else c.intr.ie % 256) % 256

/-- Modelled from the spec: mapper register writes (section 4.2).  The
variants differ in the interpretation of bank-select writes; every
stored bank index is reduced modulo the cartridge's actual bank count
(section 3 invariant). -/
def mapperWrite (mp : MapperState) (cart : Cart) (a v : Nat) : MapperState :=
  match mp.kind with
  | .mbc0 => mp
  | .mbc1 =>
    if a < 0x2000 then {mp with ramEnable := v % 16 = 0xA}
    else if a < 0x4000 then
      let b := v % 32
      {mp with romBank := (if b = 0 then 1 else b) % cart.romBankCount}
    else if a < 0x6000 then
      {mp with ramBank := v % 4 % max 1 cart.ramBankCount}
    else {mp with bankMode := v % 2}
  | .mbc2 =>
    if a < 0x4000 then
      if a &&& 0x100 = 0 then {mp with ramEnable := v % 16 = 0xA}
      else
        let b := v % 16
        {mp with romBank := (if b = 0 then 1 else b) % cart.romBankCount}
    else mp
  | .mbc3 =>
    if a < 0x2000 then {mp with ramEnable := v % 16 = 0xA}
    else if a < 0x4000 then
      let b := v % 128
      {mp with romBank := (if b = 0 then 1 else b) % cart.romBankCount}
    else if a < 0x6000 then
      {mp with ramBank := v % 4 % max 1 cart.ramBankCount}
    else mp
  | .mbc5 =>
    if a < 0x2000 then {mp with ramEnable := v % 16 = 0xA}
    else if a < 0x3000 then
      {mp with romBank := (mp.romBank / 256 * 256 + v % 256) % cart.romBankCount}
    else if a < 0x4000 then
      {mp with romBank := (v % 2 * 256 + mp.romBank % 256) % cart.romBankCount}
    else if a < 0x6000 then
      {mp with ramBank := v % 16 % max 1 cart.ramBankCount}
    else mp

/-- Modelled from the spec (section 4.2): joypad register write within
the I/O window (only the group-select bits are writable). -/
def joyWriteReg (j : JoypadState) (r v : Nat) : JoypadState :=
  if r = 0x00 then {j with select := v &&& 0x30} else j

/-- Modelled from the spec (section 4.2): timer register writes within
the I/O window; writing DIV resets it. -/
def timerWriteReg (t : TimerState) (r v : Nat) : TimerState :=
  if r = 0x04 then {t with div := 0, divCtr := 0}
  else if r = 0x05 then {t with tima := v}
  else if r = 0x06 then {t with tma := v}
  else if r = 0x07 then {t with tac := v % 8}
  else t

/-- Modelled from the spec (section 4.2): interrupt-flag write within
the I/O window, masked to the 5 defined sources (section 3 invariant). -/
def intrWriteReg (i : IntrState) (r v : Nat) : IntrState :=
  if r = 0x0F then {i with iflag := v % 32} else i

/-- Modelled from the spec (section 4.2): PPU register writes within the
I/O window.  LY (0xFF44) is read-only and the write is dropped. -/
def ppuWriteReg (p : PpuState) (r v : Nat) : PpuState :=
  if r = 0x40 then {p with lcdc := v}
  else if r = 0x41 then {p with stat := v &&& 0x78}
  else if r = 0x42 then {p with scy := v}
  else if r = 0x43 then {p with scx := v}
  else if r = 0x45 then {p with lyc := v}
  else if r = 0x47 then {p with bgp := v}
  else if r = 0x4A then {p with wy := v}
  else if r = 0x4B then {p with wx := v}
  else p

/-- Modelled from the spec: full bus write dispatch (section 4.2), with
each component owning its disjoint address sub-range (the I/O window is
delegated to Timer/PPU/Joypad/Interrupt sub-writers by register).
Writes to VRAM during PPU mode 3 and to OAM during modes 2/3 are dropped
(memory contention); writes to the ROM window go to the mapper; writes
to unmapped regions are dropped. -/
def busWrite (c : Core) (addr v0 : Nat) : Core :=
  let a := addr % 65536
  let v := v0 % 256
  { c with
    mapper := if a < 0x8000 then mapperWrite c.mapper c.cart a v else c.mapper
    vram :=
      if 0x8000 ≤ a ∧ a < 0xA000 ∧ c.ppu.mode ≠ 3 then c.vram.set (a - 0x8000) v
      else c.vram
    extram :=
      if 0xA000 ≤ a ∧ a < 0xC000 ∧ c.mapper.ramEnable ∧ c.cart.ramBankCount ≠ 0 then
        c.extram.set (c.mapper.ramBank * 0x2000 + (a - 0xA000)) v
      else c.extram
    wram :=
      if 0xC000 ≤ a ∧ a < 0xE000 then c.wram.set (a - 0xC000) v
      else if 0xE000 ≤ a ∧ a < 0xFE00 then c.wram.set (a - 0xE000) v
      else c.wram
    oam :=
      if 0xFE00 ≤ a ∧ a < 0xFEA0 ∧ ¬(c.ppu.mode = 2 ∨ c.ppu.mode = 3) then
        c.oam.set (a - 0xFE00) v
      else c.oam
    joypad :=
      if 0xFF00 ≤ a ∧ a < 0xFF80 then joyWriteReg c.joypad (a - 0xFF00) v
      else c.joypad
    timer :=
      if 0xFF00 ≤ a ∧ a < 0xFF80 then timerWriteReg c.timer (a - 0xFF00) v
      else c.timer
    intr :=
      if a = 0xFFFF then {c.intr with ie := v}
      else if 0xFF00 ≤ a ∧ a < 0xFF80 then intrWriteReg c.intr (a - 0xFF00) v
      else c.intr
    ppu :=
      if 0xFF00 ≤ a ∧ a < 0xFF80 then ppuWriteReg c.ppu (a - 0xFF00) v
      else c.ppu
    hram :=
      if 0xFF80 ≤ a ∧ a < 0xFFFF then c.hram.set (a - 0xFF80) v
      else c.hram }

/-! ## Clocked subsystems: PPU, timer, APU

Modelled from the spec, sections 4.3 to 4.5.  Each advances one machine
cycle at a time.  Per the open question in section 9 the exact mode-3
sprite-penalty and APU divisor tables are not restated by the spec; the
model uses a fixed 172-dot mode 3, a background-only pixel fetch and a
50 percent duty square output. -/
/-- Modelled from the spec (section 4.3): the PPU mode determined by the
line and the dot within the line: mode 1 on lines 144-153, else mode 2
for 80 dots, mode 3 for 172 dots, mode 0 for the rest of the 456. -/
def ppuModeOf (ly dot : Nat) : Nat :=
  if 144 ≤ ly then 1
  else if dot < 80 then 2
  else if dot < 252 then 3
  else 0

/-- Modelled from the spec (section 4.3): background pixel fetch: tile
index from the 32x32 map at VRAM 0x1800, two bit-planes per row, BGP
palette lookup. -/
def bgPixel (c : Core) (x y : Nat) : Nat :=
  let px := (x + c.ppu.scx) % 256
  let py := (y + c.ppu.scy) % 256
  let tileIdx := c.vram.getD (0x1800 + py / 8 * 32 + px / 8) 0 % 256
  let lo := c.vram.getD (tileIdx * 16 + py % 8 * 2) 0
  let hi := c.vram.getD (tileIdx * 16 + py % 8 * 2 + 1) 0
  let bit := 7 - px % 8
  let ci := lo / 2 ^ bit % 2 + 2 * (hi / 2 ^ bit % 2)
  c.ppu.bgp / 4 ^ ci % 4

/-- The PPU requests the VBlank interrupt on the cycle that completes
line 143, entering mode 1 with LY = 144 (section 4.3). -/
def PpuVblankEdge (c : Core) : Prop :=
  c.ppu.dot = 455 ∧ c.ppu.ly = 143

instance (c : Core) : Decidable (PpuVblankEdge c) := by
  unfold PpuVblankEdge
  infer_instance

/-- Modelled from the spec (section 4.3): the per-dot LY/dot counter
step: advance the dot, wrap the 456-dot line, then step LY and wrap it
at 154.  Returns the new (LY, dot). -/
def ppuCounterStep (ly dot : Nat) : Nat × Nat :=
  if dot < 455 then (ly, dot + 1)
  else (if 153 ≤ ly then 0 else ly + 1, 0)

/-- Modelled from the spec (section 4.3): one PPU dot: emit the pixel of
the current dot into the working framebuffer during the drawing window
(when graphics rendering is enabled), advance the LY/dot counters and
the derived mode, and on the dot completing line 143 (entry into
VBlank, LY reaching 144) raise the VBlank interrupt and publish the
finished working framebuffer. -/
def ppuTick (c : Core) : Core :=
  let px := c.ppu.dot - 80
  let fbw :=
    if c.renderGraphics ∧ c.ppu.ly < 144 ∧ 80 ≤ c.ppu.dot ∧ c.ppu.dot < 240 then
      c.fbWork.set (c.ppu.ly * 160 + px) (bgPixel c px c.ppu.ly)
    else c.fbWork
  let lyd := ppuCounterStep c.ppu.ly c.ppu.dot
  { c with
    ppu := {c.ppu with ly := lyd.1, dot := lyd.2, mode := ppuModeOf lyd.1 lyd.2}
    fbWork := fbw
    fb := if c.ppu.dot = 455 ∧ c.ppu.ly = 143 then fbw else c.fb
    intr :=
      if c.ppu.dot = 455 ∧ c.ppu.ly = 143 then
        {c.intr with iflag := (c.intr.iflag ||| 1) % 32}
      else c.intr }

/-- Modelled from the spec (section 4.5): TIMA input clock periods in
machine cycles selected by the TAC clock-select bits. -/
def timerPeriod : Nat → Nat
  | 0 => 1024
  | 1 => 16
  | 2 => 64
  | _ => 256

/-- TIMA overflows this cycle: enabled, its period elapses, and the
increment wraps past 0xFF (section 4.5). -/
def timaOverflows (t : TimerState) : Prop :=
  t.tac &&& 4 ≠ 0 ∧ timerPeriod (t.tac % 4) ≤ t.timaCtr + 1 ∧ 256 ≤ t.tima + 1

instance (t : TimerState) : Decidable (timaOverflows t) := by
  unfold timaOverflows
  infer_instance

/-- Modelled from the spec (section 4.5): the timer register bank after
one cycle: DIV advances unconditionally every 256 cycles; TIMA advances
at the TAC-selected rate when enabled and reloads from TMA on
overflow. -/
def timerRegsStep (t : TimerState) : TimerState :=
  let t1 :=
    if t.divCtr + 1 < 256 then {t with divCtr := t.divCtr + 1}
    else {t with div := (t.div + 1) % 256, divCtr := 0}
  if t.tac &&& 4 ≠ 0 then
    if t.timaCtr + 1 < timerPeriod (t.tac % 4) then {t1 with timaCtr := t.timaCtr + 1}
    else if t.tima + 1 < 256 then {t1 with tima := t.tima + 1, timaCtr := 0}
    else {t1 with tima := t.tma % 256, timaCtr := 0}
  else t1

/-- Modelled from the spec (section 4.5): one timer cycle: advance the
register bank and request the Timer interrupt on TIMA overflow. -/
def timerTick (c : Core) : Core :=
  { c with
    timer := timerRegsStep c.timer
    intr :=
      if timaOverflows c.timer then {c.intr with iflag := (c.intr.iflag ||| 4) % 32}
      else c.intr }

/-- Modelled from the spec (section 4.4): one channel frequency-timer
step: on expiry reload from the frequency register and advance the
duty/wave position. -/
def apuChTick (ch : ApuChannel) : ApuChannel :=
  if ch.timer = 0 then
    {ch with timer := (2048 - ch.freq % 2048) * 4, pos := (ch.pos + 1) % 8}
  else {ch with timer := ch.timer - 1}

/-- Modelled from the spec (section 4.4): mix the four channel outputs
into one signed stereo sample pair. -/
def mixSample (a : ApuState) : Int × Int :=
  let out (ch : ApuChannel) : Int :=
    if ch.enabled ∧ ch.pos % 8 < 4 then (ch.vol % 16 : Nat) else 0
  let s := (out a.ch1 + out a.ch2 + out a.ch3 + out a.ch4) * 128
  (s, s)

/-- Modelled from the spec (section 4.4): one APU cycle: every channel
state machine advances unconditionally (so that headless runs stay
deterministic); a mixed stereo sample is produced each time the
down-sampling counter completes one 95-cycle period of the 44100 Hz
output rate. -/
def apuTick (c : Core) : Core × Option (Int × Int) :=
  let a2 :=
    { c.apu with
      ch1 := apuChTick c.apu.ch1
      ch2 := apuChTick c.apu.ch2
      ch3 := apuChTick c.apu.ch3
      ch4 := apuChTick c.apu.ch4 }
  ({c with apu := {a2 with sampleCtr := if a2.sampleCtr + 1 < 95 then a2.sampleCtr + 1 else 0}},
    if a2.sampleCtr + 1 < 95 then none else some (mixSample a2))

/-- Modelled from the spec (section 2): one machine cycle distributed to
the Timer, PPU and APU, advancing the cumulative cycle counter. -/
def machineTick (c : Core) : Core × Option (Int × Int) :=
  let p := apuTick (ppuTick (timerTick c))
  ({p.1 with cycles := p.1.cycles + 1}, p.2)

/-- Run n machine cycles, collecting the emitted audio samples. -/
def machineTicks : Nat → Core → Core × List (Int × Int)
  | 0, c => (c, [])
  | n + 1, c =>
    let p := machineTick c
    let q := machineTicks n p.1
    (q.1, (match p.2 with | none => [] | some s => [s]) ++ q.2)

/-! ## CPU core

Modelled from the spec, section 4.1: fetch/decode/execute with per-opcode
cycle costs, interrupt dispatch checked at the step boundary, HALT
suspension.  A representative opcode subset is decoded explicitly;
every remaining opcode is charged the fixed 4-cycle fetch pattern
(section 4.1: undefined opcodes behave as a fixed pattern, never a host
fault). -/
/-- Modelled from the spec (section 4.5): index of the highest-priority
pending source in a 5-bit pending mask, priority VBlank > STAT > Timer >
Serial > Joypad. -/
def lowestBit (n : Nat) : Nat :=
  if n &&& 1 ≠ 0 then 0
  else if n &&& 2 ≠ 0 then 1
  else if n &&& 4 ≠ 0 then 2
  else if n &&& 8 ≠ 0 then 3
  else 4

/-- Modelled from the spec (section 4.1): interrupt dispatch: clear the
source's IF bit, clear IME, push PC, jump to the fixed vector; costs a
fixed 20 cycles. -/
def dispatchIntr (c1 : Core) : Core × Nat :=
  let idx := lowestBit ((c1.intr.ie &&& c1.intr.iflag) % 32)
  let c := {c1 with intr.iflag := c1.intr.iflag % 32 &&& (0x1F ^^^ 2 ^ idx)}
  let pc := c.regs.pc % 65536
  let sp1 := (c.regs.sp + 65535) % 65536
  let sp2 := (c.regs.sp + 65534) % 65536
  let c := busWrite c sp1 (pc / 256)
  let c := busWrite c sp2 (pc % 256)
  ({c with regs.sp := sp2, regs.pc := 0x40 + 8 * idx, regs.ime := false}, 20)

/-- Modelled from the spec (section 4.1): per-opcode machine-cycle cost
table for the modelled decoder; every opcode outside the explicit subset
takes the fixed 4-cycle fetch pattern. -/
def instrCycles (op : Nat) : Nat :=
  if op = 0x3E then 8
  else if op = 0xC3 then 16
  else if op = 0xEA then 16
  else 4

/-- The 16-bit immediate operand following the opcode at PC. -/
def addr16 (c : Core) : Nat :=
  busRead c ((c.regs.pc + 1) % 65536) + 256 * busRead c ((c.regs.pc + 2) % 65536)

/-- Modelled from the spec (section 4.1): the register-file effect of the
decoded opcode.  Explicitly decoded: NOP, INC A, LD A d8, HALT, JP a16,
LD (a16) A, DI, EI; all other opcodes take the fixed pattern advancing
PC by one (undefined opcodes are never a host fault). -/
def execInstrRegs (c : Core) (op : Nat) : CpuRegs :=
  let r := c.regs
  let pc1 := (r.pc + 1) % 65536
  if op = 0x00 then {r with pc := pc1}
  else if op = 0x3C then
    let a2 := (r.a + 1) % 256
    let f2 := (if a2 = 0 then 128 else 0) + (if r.a % 16 = 15 then 32 else 0)
    {r with a := a2, f := f2 + (r.f % 256 &&& 16), pc := pc1}
  else if op = 0x3E then {r with a := busRead c pc1, pc := (r.pc + 2) % 65536}
  else if op = 0x76 then {r with halted := true, pc := pc1}
  else if op = 0xC3 then {r with pc := addr16 c}
  else if op = 0xEA then {r with pc := (r.pc + 3) % 65536}
  else if op = 0xF3 then {r with ime := false, pc := pc1}
  else if op = 0xFB then {r with ime := true, pc := pc1}
  else {r with pc := pc1}

/-- Modelled from the spec (section 4.1): execute the decoded opcode
against the register file and the bus; only LD (a16) A stores to
memory. -/
def execInstrCore (c : Core) (op : Nat) : Core :=
  let c2 := {c with regs := execInstrRegs c op}
  if op = 0xEA then busWrite c2 (addr16 c) c.regs.a else c2

/-- Modelled from the spec (section 4.1): fetch, decode, execute,
charging the opcode's table cost. -/
def execInstr (c : Core) : Core × Nat :=
  let op := busRead c c.regs.pc
  (execInstrCore c op, instrCycles op)

/-- Modelled from the spec (section 4.1): one CPU step boundary: a halted
CPU burns 4 cycles until a pending-and-enabled interrupt wakes it;
otherwise, if IME is set and an enabled source is pending, dispatch it,
else execute the next instruction. -/
def cpuExec (c : Core) : Core × Nat :=
  let pend := (c.intr.ie &&& c.intr.iflag) % 32
  if c.regs.halted then
    if pend ≠ 0 then
      let c2 := {c with regs.halted := false}
      if c2.regs.ime then dispatchIntr c2 else execInstr c2
    else (c, 4)
  else if c.regs.ime ∧ pend ≠ 0 then dispatchIntr c
  else execInstr c

/-- Modelled from the spec (section 2): one full machine step: execute
one CPU instruction (or dispatch/halt) and spend its cycle cost
advancing the Timer, PPU and APU, collecting emitted audio samples. -/
def coreStep (c : Core) : Core × Nat × List (Int × Int) :=
  let p := cpuExec c
  let q := machineTicks p.2 p.1
  (q.1, p.2, q.2)

/-- Modelled from the spec (section 5): append one stereo pair to the
audio ring with the oldest-drop overflow policy at the fixed 8192-entry
capacity. -/
def pushSample (r : List Int) (s : Int × Int) : List Int :=
  if 8192 ≤ r.length + 2 then r.drop 2 ++ [s.1, s.2] else r ++ [s.1, s.2]

/-- Append a batch of stereo pairs to the audio ring. -/
def pushSamples (r : List Int) (l : List (Int × Int)) : List Int :=
  l.foldl pushSample r

/-! ## Public API surface

The function names and shapes follow src/include/zgbc.h; the behavior
behind each is modelled from the spec (sections 6 and 7). -/
/-- Modelled from the spec: APU channel reset state. -/
def initCh : ApuChannel :=
  {enabled := false, freq := 0, timer := 0, pos := 0, vol := 0, len := 0}

/-- Modelled from the spec (section 8): the deterministic post-boot DMG
register file. -/
def initRegs : CpuRegs :=
  {a := 1, f := 0xB0, b := 0, c := 0x13, d := 0, e := 0xD8, h := 1, l := 0x4D,
    pc := 0x100, sp := 0xFFFE, ime := false, halted := false}

/-- Modelled from the spec: zgbc_new, a fresh machine with no cartridge
(sections 6 and 8: deterministic initial state). -/
def zgbc_new : zgbc_t :=
  { core :=
    { regs := initRegs
      cart := {rom := [], romBankCount := 0, ramBankCount := 0}
      mapper := {kind := .mbc0, romBank := 1, ramBank := 0, ramEnable := false, bankMode := 0}
      timer := {div := 0, tima := 0, tma := 0, tac := 0, divCtr := 0, timaCtr := 0}
      intr := {ie := 0, iflag := 1}
      joypad := {buttons := 0, select := 0x30}
      ppu := {mode := 2, ly := 0, lyc := 0, dot := 0, lcdc := 0x91, stat := 0, scy := 0, scx := 0, wy := 0, wx := 0, bgp := 0xFC}
      apu := {ch1 := initCh, ch2 := initCh, ch3 := initCh, ch4 := initCh, sampleCtr := 0}
      vram := List.replicate 8192 0
      wram := List.replicate 8192 0
      oam := List.replicate 160 0
      hram := List.replicate 127 0
      extram := []
      fb := List.replicate 23040 0
      fbWork := List.replicate 23040 0
      renderGraphics := true
      cycles := 0 }
    audioRing := []
    renderAudio := true }

/-- Modelled from the spec (section 4.2): mapper family selected from the
cartridge header's declared type byte; unknown types are invalid. -/
def mapperKindOf (b : Nat) : Option MapperKind :=
  if b = 0x00 ∨ b = 0x08 ∨ b = 0x09 then some .mbc0
  else if b = 0x01 ∨ b = 0x02 ∨ b = 0x03 then some .mbc1
  else if b = 0x05 ∨ b = 0x06 then some .mbc2
  else if 0x0F ≤ b ∧ b ≤ 0x13 then some .mbc3
  else if 0x19 ≤ b ∧ b ≤ 0x1E then some .mbc5
  else none

/-- Modelled from the spec: ROM bank count from the header size code
(2 shifted left by the code). -/
def romBanksOf (b : Nat) : Nat := 2 ^ (min b 8 + 1)

/-- Modelled from the spec: RAM bank count from the header RAM size code. -/
def ramBanksOf (b : Nat) : Nat :=
  if b = 2 then 1 else if b = 3 then 4 else if b = 4 then 16 else if b = 5 then 8 else 0

/-- Modelled from the spec (sections 4.2, 6, 7): zgbc_load_rom copies the
ROM data (padded with 0xFF up to a whole number of 16KB banks), parses
the header into the mapper family and bank counts, and allocates external
RAM; truncated input (shorter than the 0x150-byte header area) or an
unknown mapper type fails, returning false without mutating the machine. -/
def zgbc_load_rom (m : zgbc_t) (data : List Nat) : Bool × zgbc_t :=
  if data.length < 0x150 then (false, m)
  else
    match mapperKindOf (data.getD 0x147 0 % 256) with
    | none => (false, m)
    | some k =>
      let banks := romBanksOf (data.getD 0x148 0 % 256)
      let rbanks := ramBanksOf (data.getD 0x149 0 % 256)
      let rom := data ++ List.replicate (banks * 0x4000 - data.length) 0xFF
      let cart2 : Cart := {rom := rom, romBankCount := banks, ramBankCount := rbanks}
      let map2 : MapperState :=
        {kind := k, romBank := 1, ramBank := 0, ramEnable := false, bankMode := 0}
      let core2 :=
        { m.core with
          cart := cart2
          mapper := map2
          extram := List.replicate (rbanks * 0x2000) 0 }
      (true, {m with core := core2})

/-- zgbc_step: run one CPU step, returning the machine and the cycle
cost; emitted audio samples are appended to the ring only when audio
rendering is enabled (section 4.4 headless mode). -/
def zgbc_step (m : zgbc_t) : zgbc_t × Nat :=
  let r := coreStep m.core
  let ring2 := if m.renderAudio then pushSamples m.audioRing r.2.2 else m.audioRing
  ({core := r.1, audioRing := ring2, renderAudio := m.renderAudio}, r.2.1)

/-- The zgbc_frame driver loop: repeated zgbc_step calls against a
70224-cycle budget, bounded by a fuel of at most 17556 iterations (every
step costs at least 4 cycles). -/
def frameGo : Nat → Nat → zgbc_t → zgbc_t
  | 0, _, m => m
  | _ + 1, 0, m => m
  | fuel + 1, b + 1, m =>
    let p := zgbc_step m
    frameGo fuel (b + 1 - p.2) p.1

/-- Modelled from the spec (sections 5 and 6): zgbc_frame runs one fixed
70224-cycle frame budget. -/
def zgbc_frame (m : zgbc_t) : zgbc_t := frameGo 17556 70224 m

/-- zgbc_run_frames: batch frame execution. -/
def zgbc_run_frames : zgbc_t → Nat → zgbc_t
  | m, 0 => m
  | m, n + 1 => zgbc_run_frames (zgbc_frame m) n

/-- Modelled from the spec (section 4.6): zgbc_set_input stores the
button mask and raises the Joypad interrupt on a released-to-pressed
transition on a selected line. -/
def zgbc_set_input (m : zgbc_t) (buttons : Nat) : zgbc_t :=
  let old := m.core.joypad.buttons % 256
  let new := buttons % 256
  let sel := m.core.joypad.select % 256
  let selected :=
    (if sel &&& 0x10 = 0 then 0xF0 else 0) ||| (if sel &&& 0x20 = 0 then 0xF else 0)
  let rising := new &&& (255 ^^^ old) &&& selected
  { m with core :=
    { m.core with
      joypad := {m.core.joypad with buttons := new}
      intr :=
        if rising ≠ 0 then {m.core.intr with iflag := (m.core.intr.iflag ||| 16) % 32}
        else m.core.intr } }

/-- zgbc_set_render_graphics: graphics headless toggle. -/
def zgbc_set_render_graphics (m : zgbc_t) (b : Bool) : zgbc_t :=
  {m with core.renderGraphics := b}

/-- zgbc_set_render_audio: audio headless toggle. -/
def zgbc_set_render_audio (m : zgbc_t) (b : Bool) : zgbc_t :=
  {m with renderAudio := b}

/-- zgbc_get_frame_buffer: the published 160x144 2-bit-index frame. -/
def zgbc_get_frame_buffer (m : zgbc_t) : List Nat := m.core.fb

/-- zgbc_get_frame_rgba: expand color indices to packed grayscale RGBA. -/
def zgbc_get_frame_rgba (m : zgbc_t) : List Nat :=
  m.core.fb.map (fun ci => (3 - ci % 4) * 0x555555 * 256 + 0xFF)

/-- zgbc_get_ly: current scanline as a byte. -/
def zgbc_get_ly (m : zgbc_t) : Nat := m.core.ppu.ly % 256

/-- zgbc_get_audio_samples: drain up to maxSamples stereo pairs from the
ring, returning the samples read and the drained machine. -/
def zgbc_get_audio_samples (m : zgbc_t) (maxSamples : Nat) : List Int × zgbc_t :=
  (m.audioRing.take (2 * maxSamples), {m with audioRing := m.audioRing.drop (2 * maxSamples)})

/-- zgbc_read: single-byte read through the full bus. -/
def zgbc_read (m : zgbc_t) (addr : Nat) : Nat := busRead m.core addr

/-- zgbc_write: single-byte write through the full bus. -/
def zgbc_write (m : zgbc_t) (addr v : Nat) : zgbc_t :=
  {m with core := busWrite m.core addr v}

/-- zgbc_get_wram: raw WRAM contents. -/
def zgbc_get_wram (m : zgbc_t) : List Nat := m.core.wram

/-- zgbc_get_wram_size: always 8192. -/
def zgbc_get_wram_size : Nat := 8192

/-- zgbc_copy_memory: snapshot of the full 64KB address space as seen
through the bus. -/
def zgbc_copy_memory (m : zgbc_t) : List Nat :=
  (List.range 65536).map (busRead m.core)

/-- zgbc_get_save_data: battery-backed external RAM contents. -/
def zgbc_get_save_data (m : zgbc_t) : List Nat := m.core.extram

/-- zgbc_get_save_size: external RAM size in bytes (mapper dependent,
may be zero). -/
def zgbc_get_save_size (m : zgbc_t) : Nat := m.core.cart.ramBankCount * 0x2000

/-- zgbc_load_save_data: overwrite the front of external RAM from a host
buffer, clamped to the allocated size. -/
def zgbc_load_save_data (m : zgbc_t) (data : List Nat) : zgbc_t :=
  let n := min data.length m.core.extram.length
  {m with core.extram := (data.take n).map (· % 256) ++ m.core.extram.drop n}

/-- zgbc_get_cycles: cumulative machine-cycle counter (uint64). -/
def zgbc_get_cycles (m : zgbc_t) : Nat := m.core.cycles % 2 ^ 64

/-- zgbc_is_halted: whether the CPU is halted. -/
def zgbc_is_halted (m : zgbc_t) : Bool := m.core.regs.halted

/-! ## Save-state serializer

Modelled from the spec, section 4.7: a constant-size blob walking every
component's state in a stable order (registers, mapper state, timer,
interrupt latches, joypad latch, PPU state, APU channel state, cycle
counter, then the bus-visible RAM regions), padded with zeros to the
fixed size; raw ROM bytes, external RAM and the framebuffers are not
included.  The C declaration (zgbc.h line 144) passes only a data
pointer: the loader reads exactly the fixed layout and cannot observe
the caller's buffer size. -/
/-- zgbc_save_state_size: the fixed blob size, ZGBC_SAVE_STATE_SIZE in
the header. -/
def zgbc_save_state_size : Nat := 24760

/-- Zero padding bringing the serialized fields up to the fixed size. -/
def saveStatePad : Nat := 8004

/-- Byte tag for the mapper kind. -/
def kindCode : MapperKind → Nat
  | .mbc0 => 0
  | .mbc1 => 1
  | .mbc2 => 2
  | .mbc3 => 3
  | .mbc5 => 4

/-- Mapper kind from its byte tag. -/
def kindOfCode (b : Nat) : MapperKind :=
  if b = 1 then .mbc1
  else if b = 2 then .mbc2
  else if b = 3 then .mbc3
  else if b = 4 then .mbc5
  else .mbc0

def encRegs (r : CpuRegs) : List Nat :=
  encN 1 r.a ++ encN 1 r.f ++ encN 1 r.b ++ encN 1 r.c ++ encN 1 r.d ++
  encN 1 r.e ++ encN 1 r.h ++ encN 1 r.l ++ encN 2 r.pc ++ encN 2 r.sp ++
  encB r.ime ++ encB r.halted

def encMapper (mp : MapperState) : List Nat :=
  encN 1 (kindCode mp.kind) ++ encN 2 mp.romBank ++ encN 1 mp.ramBank ++
  encB mp.ramEnable ++ encN 1 mp.bankMode

def encTimer (t : TimerState) : List Nat :=
  encN 1 t.div ++ encN 1 t.tima ++ encN 1 t.tma ++ encN 1 t.tac ++
  encN 2 t.divCtr ++ encN 2 t.timaCtr

def encIntr (i : IntrState) : List Nat :=
  encN 1 i.ie ++ encN 1 i.iflag

def encJoy (j : JoypadState) : List Nat :=
  encN 1 j.buttons ++ encN 1 j.select

def encPpu (p : PpuState) : List Nat :=
  encN 1 p.mode ++ encN 1 p.ly ++ encN 1 p.lyc ++ encN 2 p.dot ++
  encN 1 p.lcdc ++ encN 1 p.stat ++ encN 1 p.scy ++ encN 1 p.scx ++
  encN 1 p.wy ++ encN 1 p.wx ++ encN 1 p.bgp

def encCh (ch : ApuChannel) : List Nat :=
  encB ch.enabled ++ encN 2 ch.freq ++ encN 2 ch.timer ++ encN 1 ch.pos ++
  encN 1 ch.vol ++ encN 1 ch.len

def encApu (a : ApuState) : List Nat :=
  encCh a.ch1 ++ encCh a.ch2 ++ encCh a.ch3 ++ encCh a.ch4 ++ encN 1 a.sampleCtr

/-- zgbc_save_state: serialize the machine into the fixed-size blob. -/
def zgbc_save_state (m : zgbc_t) : List Nat :=
  encRegs m.core.regs ++ encMapper m.core.mapper ++ encTimer m.core.timer ++
  encIntr m.core.intr ++ encJoy m.core.joypad ++ encPpu m.core.ppu ++
  encApu m.core.apu ++ encN 8 m.core.cycles ++ m.core.vram ++ m.core.wram ++
  m.core.oam ++ m.core.hram ++ List.replicate saveStatePad 0

def decRegs (d : List Nat) : CpuRegs × List Nat :=
  let (va, d1) := decN 1 d
  let (vf, d2) := decN 1 d1
  let (vb, d3) := decN 1 d2
  let (vc, d4) := decN 1 d3
  let (vd, d5) := decN 1 d4
  let (ve, d6) := decN 1 d5
  let (vh, d7) := decN 1 d6
  let (vl, d8) := decN 1 d7
  let (vpc, d9) := decN 2 d8
  let (vsp, d10) := decN 2 d9
  let (vime, d11) := decB d10
  let (vhalted, d12) := decB d11
  ({a := va, f := vf, b := vb, c := vc, d := vd, e := ve, h := vh, l := vl, pc := vpc, sp := vsp, ime := vime, halted := vhalted}, d12)

def decMapper (d : List Nat) : MapperState × List Nat :=
  let (vk, d1) := decN 1 d
  let (vrb, d2) := decN 2 d1
  let (vqb, d3) := decN 1 d2
  let (ven, d4) := decB d3
  let (vbm, d5) := decN 1 d4
  ({kind := kindOfCode vk, romBank := vrb, ramBank := vqb, ramEnable := ven, bankMode := vbm}, d5)

def decTimer (d : List Nat) : TimerState × List Nat :=
  let (vdiv, d1) := decN 1 d
  let (vtima, d2) := decN 1 d1
  let (vtma, d3) := decN 1 d2
  let (vtac, d4) := decN 1 d3
  let (vdc, d5) := decN 2 d4
  let (vtc, d6) := decN 2 d5
  ({div := vdiv, tima := vtima, tma := vtma, tac := vtac, divCtr := vdc, timaCtr := vtc}, d6)

def decIntr (d : List Nat) : IntrState × List Nat :=
  let (vie, d1) := decN 1 d
  let (vif, d2) := decN 1 d1
  ({ie := vie, iflag := vif}, d2)

def decJoy (d : List Nat) : JoypadState × List Nat :=
  let (vbt, d1) := decN 1 d
  let (vsel, d2) := decN 1 d1
  ({buttons := vbt, select := vsel}, d2)

def decPpu (d : List Nat) : PpuState × List Nat :=
  let (vmode, d1) := decN 1 d
  let (vly, d2) := decN 1 d1
  let (vlyc, d3) := decN 1 d2
  let (vdot, d4) := decN 2 d3
  let (vlcdc, d5) := decN 1 d4
  let (vstat, d6) := decN 1 d5
  let (vscy, d7) := decN 1 d6
  let (vscx, d8) := decN 1 d7
  let (vwy, d9) := decN 1 d8
  let (vwx, d10) := decN 1 d9
  let (vbgp, d11) := decN 1 d10
  ({mode := vmode, ly := vly, lyc := vlyc, dot := vdot, lcdc := vlcdc, stat := vstat, scy := vscy, scx := vscx, wy := vwy, wx := vwx, bgp := vbgp}, d11)

def decCh (d : List Nat) : ApuChannel × List Nat :=
  let (ven, d1) := decB d
  let (vfreq, d2) := decN 2 d1
  let (vtimer, d3) := decN 2 d2
  let (vpos, d4) := decN 1 d3
  let (vvol, d5) := decN 1 d4
  let (vlen, d6) := decN 1 d5
  ({enabled := ven, freq := vfreq, timer := vtimer, pos := vpos, vol := vvol, len := vlen}, d6)

def decApu (d : List Nat) : ApuState × List Nat :=
  let (c1, d1) := decCh d
  let (c2, d2) := decCh d1
  let (c3, d3) := decCh d2
  let (c4, d4) := decCh d3
  let (vsc, d5) := decN 1 d4
  ({ch1 := c1, ch2 := c2, ch3 := c3, ch4 := c4, sampleCtr := vsc}, d5)

/-- zgbc_load_state: deserialize a blob into the machine, replacing all
serialized state.  Per the C signature only the data pointer is given:
the loader consumes the fixed layout from the front of the accessible
bytes and cannot see the caller's buffer size. -/
def zgbc_load_state (m : zgbc_t) (blob : List Nat) : zgbc_t :=
  let d0 := blob.take zgbc_save_state_size
  let (regs2, d1) := decRegs d0
  let (map2, d2) := decMapper d1
  let (tim2, d3) := decTimer d2
  let (int2, d4) := decIntr d3
  let (joy2, d5) := decJoy d4
  let (ppu2, d6) := decPpu d5
  let (apu2, d7) := decApu d6
  let (cyc2, d8) := decN 8 d7
  let (vram2, d9) := decChunk 8192 d8
  let (wram2, d10) := decChunk 8192 d9
  let (oam2, d11) := decChunk 160 d10
  let (hram2, _) := decChunk 127 d11
  let core2 :=
    { m.core with
      regs := regs2
      mapper := map2
      timer := tim2
      intr := int2
      joypad := joy2
      ppu := ppu2
      apu := apu2
      cycles := cyc2
      vram := vram2
      wram := wram2
      oam := oam2
      hram := hram2 }
  {m with core := core2}

/-! ## Serializer round-trip lemmas -/
/-- The register file as reproduced by a decode of its own encoding:
every byte-backed field reduced to its machine width. -/
def normRegs (r : CpuRegs) : CpuRegs :=
  {r with a := r.a % 256, f := r.f % 256, b := r.b % 256, c := r.c % 256, d := r.d % 256, e := r.e % 256, h := r.h % 256, l := r.l % 256, pc := r.pc % 65536, sp := r.sp % 65536}

def normMapper (mp : MapperState) : MapperState :=
  {mp with romBank := mp.romBank % 65536, ramBank := mp.ramBank % 256, bankMode := mp.bankMode % 256}

def normTimer (t : TimerState) : TimerState :=
  {t with div := t.div % 256, tima := t.tima % 256, tma := t.tma % 256, tac := t.tac % 256, divCtr := t.divCtr % 65536, timaCtr := t.timaCtr % 65536}

def normIntr (i : IntrState) : IntrState :=
  {i with ie := i.ie % 256, iflag := i.iflag % 256}

def normJoy (j : JoypadState) : JoypadState :=
  {j with buttons := j.buttons % 256, select := j.select % 256}

def normPpu (p : PpuState) : PpuState :=
  {p with mode := p.mode % 256, ly := p.ly % 256, lyc := p.lyc % 256, dot := p.dot % 65536, lcdc := p.lcdc % 256, stat := p.stat % 256, scy := p.scy % 256, scx := p.scx % 256, wy := p.wy % 256, wx := p.wx % 256, bgp := p.bgp % 256}

def normCh (ch : ApuChannel) : ApuChannel :=
  {ch with freq := ch.freq % 65536, timer := ch.timer % 65536, pos := ch.pos % 256, vol := ch.vol % 256, len := ch.len % 256}

def normApu (a : ApuState) : ApuState :=
  {a with ch1 := normCh a.ch1, ch2 := normCh a.ch2, ch3 := normCh a.ch3, ch4 := normCh a.ch4, sampleCtr := a.sampleCtr % 256}

/-- The four bus-visible RAM regions have their fixed hardware sizes
(section 3: VRAM 8KB, WRAM 8KB, OAM 160B, HRAM 127B). -/
abbrev SizesWf (m : zgbc_t) : Prop :=
  m.core.vram.length = 8192 ∧ m.core.wram.length = 8192 ∧
  m.core.oam.length = 160 ∧ m.core.hram.length = 127

/-! ## Machine well-formedness

A machine state as the C implementation can hold it: every byte-backed
field within machine width.  List byte contents need no bound: the
serializer copies RAM regions verbatim. -/
abbrev RegsWf (r : CpuRegs) : Prop :=
  r.a < 256 ∧ r.f < 256 ∧ r.b < 256 ∧ r.c < 256 ∧ r.d < 256 ∧ r.e < 256 ∧
  r.h < 256 ∧ r.l < 256 ∧ r.pc < 65536 ∧ r.sp < 65536

abbrev MapperWf (mp : MapperState) : Prop :=
  mp.romBank < 65536 ∧ mp.ramBank < 256 ∧ mp.bankMode < 256

abbrev TimerWf (t : TimerState) : Prop :=
  t.div < 256 ∧ t.tima < 256 ∧ t.tma < 256 ∧ t.tac < 256 ∧
  t.divCtr < 65536 ∧ t.timaCtr < 65536

abbrev IntrWf (i : IntrState) : Prop := i.ie < 256 ∧ i.iflag < 256

abbrev JoyWf (j : JoypadState) : Prop := j.buttons < 256 ∧ j.select < 256

abbrev PpuWf (p : PpuState) : Prop :=
  p.mode < 256 ∧ p.ly < 256 ∧ p.lyc < 256 ∧ p.dot < 65536 ∧ p.lcdc < 256 ∧
  p.stat < 256 ∧ p.scy < 256 ∧ p.scx < 256 ∧ p.wy < 256 ∧ p.wx < 256 ∧ p.bgp < 256

abbrev ChWf (ch : ApuChannel) : Prop :=
  ch.freq < 65536 ∧ ch.timer < 65536 ∧ ch.pos < 256 ∧ ch.vol < 256 ∧ ch.len < 256

abbrev ApuWf (a : ApuState) : Prop :=
  ChWf a.ch1 ∧ ChWf a.ch2 ∧ ChWf a.ch3 ∧ ChWf a.ch4 ∧ a.sampleCtr < 256

abbrev ZgbcWf (m : zgbc_t) : Prop :=
  SizesWf m ∧ RegsWf m.core.regs ∧ MapperWf m.core.mapper ∧
  TimerWf m.core.timer ∧ IntrWf m.core.intr ∧ JoyWf m.core.joypad ∧
  PpuWf m.core.ppu ∧ ApuWf m.core.apu ∧ m.core.cycles < 2 ^ 64

/-- Iterated zgbc_step. -/
def stepN : Nat → zgbc_t → zgbc_t
  | 0, m => m
  | n + 1, m => stepN n (zgbc_step m).1

/-- The per-step observation of an execution trace: register values, the
written RAM regions, the framebuffer, and the audio sample ring. -/
def obs (m : zgbc_t) : CpuRegs × List Nat × List Nat × List Nat × List Int :=
  (m.core.regs, m.core.vram, m.core.wram, m.core.fb, m.audioRing)

/-- The N-instruction execution trace: the observation after each of the
first N steps. -/
def execTrace (n : Nat) (m : zgbc_t) :
    List (CpuRegs × List Nat × List Nat × List Nat × List Int) :=
  (List.range n).map (fun k => obs (stepN (k + 1) m))

/-! ## Frame execution versus single-stepping -/
/-- Running repeated zgbc_step calls, accumulating cycle counts upward
until the target total is reached. -/
def stepUntil : Nat → Nat → Nat → zgbc_t → zgbc_t
  | 0, _, _, m => m
  | fuel + 1, target, acc, m =>
    if target ≤ acc then m
    else
      let p := zgbc_step m
      stepUntil fuel target (acc + p.2) p.1

/-- Run repeated zgbc_step calls totalling the given number of machine
cycles (the fuel equals the cycle count, ample since every step consumes
at least one cycle). -/
def runStepsCycles (cycles : Nat) (m : zgbc_t) : zgbc_t :=
  stepUntil cycles cycles 0 m

/-! ## Load-state interface properties -/
/-- The tuple of machine components the save-state blob serializes. -/
def serializedOf (m : zgbc_t) :
    CpuRegs × MapperState × TimerState × IntrState × JoypadState × PpuState ×
      ApuState × Nat × List Nat × List Nat × List Nat × List Nat :=
  (m.core.regs, m.core.mapper, m.core.timer, m.core.intr, m.core.joypad,
    m.core.ppu, m.core.apu, m.core.cycles, m.core.vram, m.core.wram,
    m.core.oam, m.core.hram)

/-- The tuple of machine components the save-state blob does not cover
(cartridge ROM, external RAM, framebuffers, render flags, audio ring). -/
def unserializedOf (m : zgbc_t) :
    Cart × List Nat × List Nat × List Nat × Bool × List Int × Bool :=
  (m.core.cart, m.core.extram, m.core.fb, m.core.fbWork,
    m.core.renderGraphics, m.audioRing, m.renderAudio)

/-! ## Unmapped and disabled reads -/
/-- An address whose region is unmapped or disabled (section 4.2): the
0xFEA0-0xFEFF prohibited area, or the external-RAM window while RAM is
disabled or absent. -/
def UnmappedOrDisabled (m : zgbc_t) (addr : Nat) : Prop :=
  (0xFEA0 ≤ addr % 65536 ∧ addr % 65536 < 0xFF00) ∨
  (0xA000 ≤ addr % 65536 ∧ addr % 65536 < 0xC000 ∧
    (m.core.mapper.ramEnable = false ∨ m.core.cart.ramBankCount = 0))

/-! ## Audio headless mode -/
/-- Iterated deterministic core stepping. -/
def coreStepN : Nat → Core → Core
  | 0, c => c
  | n + 1, c => coreStepN n (coreStep c).1

/-! ## Mapper banking invariants -/
/-- Loaded-cartridge invariant: at least one ROM bank, ROM and external
RAM large enough for their declared bank counts, and current bank
indices within range (section 3 invariant: bank indices are taken modulo
the actual bank count). -/
abbrev CartInv (m : zgbc_t) : Prop :=
  0 < m.core.cart.romBankCount ∧
  m.core.cart.romBankCount * 0x4000 ≤ m.core.cart.rom.length ∧
  m.core.cart.ramBankCount * 0x2000 ≤ m.core.extram.length ∧
  m.core.mapper.romBank < m.core.cart.romBankCount ∧
  m.core.mapper.ramBank < max 1 m.core.cart.ramBankCount

/-- Concrete MBC1 cartridge machine used by the C7 witness: a 32KB
two-bank ROM with one 8KB external-RAM bank. -/
def cartMachine : zgbc_t :=
  { zgbc_new with core :=
    { zgbc_new.core with
      cart := {rom := List.replicate 32768 0, romBankCount := 2, ramBankCount := 1}
      mapper := {kind := MapperKind.mbc1, romBank := 1, ramBank := 0, ramEnable := false, bankMode := 0}
      extram := List.replicate 8192 0 } }

/-! ## PPU counter invariants -/
/-- Machine-core invariant for the PPU claims: LY within 0-153, the dot
counter within its 456-dot line, and the RAM regions at their fixed
sizes. -/
abbrev CoreInv (c : Core) : Prop :=
  c.ppu.ly ≤ 153 ∧ c.ppu.dot ≤ 455 ∧ c.vram.length = 8192 ∧
  c.wram.length = 8192 ∧ c.oam.length = 160 ∧ c.hram.length = 127

/-- Iterated machine cycles (core only). -/
def tickN : Nat → Core → Core
  | 0, c => c
  | n + 1, c => tickN n (machineTick c).1

/-! ## Reachable machine states -/
/-- Machine states reachable through the public API from a freshly
created machine: stepping, frames, bus writes, input, render toggles,
audio drains, ROM and battery loads, and loading a save state produced
from a reachable machine (the save/load contract of section 4.7). -/
inductive Reachable : zgbc_t → Prop
  | new : Reachable zgbc_new
  | load_rom (m : zgbc_t) (d : List Nat) : Reachable m → Reachable (zgbc_load_rom m d).2
  | step (m : zgbc_t) : Reachable m → Reachable (zgbc_step m).1
  | frame (m : zgbc_t) : Reachable m → Reachable (zgbc_frame m)
  | run_frames (m : zgbc_t) (n : Nat) : Reachable m → Reachable (zgbc_run_frames m n)
  | write (m : zgbc_t) (a v : Nat) : Reachable m → Reachable (zgbc_write m a v)
  | set_input (m : zgbc_t) (b : Nat) : Reachable m → Reachable (zgbc_set_input m b)
  | set_render_graphics (m : zgbc_t) (b : Bool) :
      Reachable m → Reachable (zgbc_set_render_graphics m b)
  | set_render_audio (m : zgbc_t) (b : Bool) :
      Reachable m → Reachable (zgbc_set_render_audio m b)
  | get_audio (m : zgbc_t) (n : Nat) :
      Reachable m → Reachable (zgbc_get_audio_samples m n).2
  | load_save_data (m : zgbc_t) (d : List Nat) :
      Reachable m → Reachable (zgbc_load_save_data m d)
  | load_state (m msrc : zgbc_t) :
      Reachable m → Reachable msrc → Reachable (zgbc_load_state m (zgbc_save_state msrc))

/-- The machine invariant carried along Reachable. -/
abbrev MachInv (m : zgbc_t) : Prop := CoreInv m.core

/-! ## Theorems -/

theorem encN_length (w x : Nat) : (encN w x).length = w := by
  induction w generalizing x with
  | zero => rfl
  | succ w ih => simp [encN, ih]

theorem decN_encN_append (w x : Nat) (r : List Nat) :
    decN w (encN w x ++ r) = (x % 256 ^ w, r) := by
  induction w generalizing x with
  | zero => simp [encN, decN, Nat.mod_one]
  | succ w ih =>
    simp only [encN, decN, List.cons_append, List.tail_cons, List.headI, ih,
      Prod.mk.injEq, and_true]
    rw [pow_succ, mul_comm (256 ^ w) 256, Nat.mod_mul]
    generalize x / 256 % 256 ^ w = t
    omega

theorem decN_encN (w x : Nat) (r : List Nat) (h : x < 256 ^ w) :
    decN w (encN w x ++ r) = (x, r) := by
  rw [decN_encN_append, Nat.mod_eq_of_lt h]

theorem decChunk_append (n : Nat) (l r : List Nat) (h : l.length = n) :
    decChunk n (l ++ r) = (l, r) := by
  subst h
  simp [decChunk, List.take_left, List.drop_left]

theorem decB_encB (b : Bool) (r : List Nat) : decB (encB b ++ r) = (b, r) := by
  cases b <;> simp [encB, decB]

theorem decRegs_encRegs (r : CpuRegs) (rest : List Nat) :
    decRegs (encRegs r ++ rest) = (normRegs r, rest) := by
  simp [encRegs, decRegs, List.append_assoc, decN_encN_append, decB_encB, normRegs]

theorem kindOfCode_kindCode (k : MapperKind) : kindOfCode (kindCode k % 256) = k := by
  cases k <;> rfl

theorem decMapper_encMapper (mp : MapperState) (rest : List Nat) :
    decMapper (encMapper mp ++ rest) = (normMapper mp, rest) := by
  simp [encMapper, decMapper, List.append_assoc, decN_encN_append, decB_encB, normMapper]
  cases mp.kind <;> rfl

theorem decTimer_encTimer (t : TimerState) (rest : List Nat) :
    decTimer (encTimer t ++ rest) = (normTimer t, rest) := by
  simp [encTimer, decTimer, List.append_assoc, decN_encN_append, normTimer]

theorem decIntr_encIntr (i : IntrState) (rest : List Nat) :
    decIntr (encIntr i ++ rest) = (normIntr i, rest) := by
  simp [encIntr, decIntr, List.append_assoc, decN_encN_append, normIntr]

theorem decJoy_encJoy (j : JoypadState) (rest : List Nat) :
    decJoy (encJoy j ++ rest) = (normJoy j, rest) := by
  simp [encJoy, decJoy, List.append_assoc, decN_encN_append, normJoy]

theorem decPpu_encPpu (p : PpuState) (rest : List Nat) :
    decPpu (encPpu p ++ rest) = (normPpu p, rest) := by
  simp [encPpu, decPpu, List.append_assoc, decN_encN_append, normPpu]

theorem decCh_encCh (ch : ApuChannel) (rest : List Nat) :
    decCh (encCh ch ++ rest) = (normCh ch, rest) := by
  simp [encCh, decCh, List.append_assoc, decN_encN_append, decB_encB, normCh]

theorem decApu_encApu (a : ApuState) (rest : List Nat) :
    decApu (encApu a ++ rest) = (normApu a, rest) := by
  simp [encApu, decApu, List.append_assoc, decN_encN_append, decCh_encCh, normApu]

theorem zgbc_save_state_length (m : zgbc_t) (h : SizesWf m) :
    (zgbc_save_state m).length = zgbc_save_state_size := by
  obtain ⟨h1, h2, h3, h4⟩ := h
  simp only [zgbc_save_state, List.length_append, List.length_replicate,
    encRegs, encMapper, encTimer, encIntr, encJoy, encPpu, encApu, encCh,
    encB, encN_length, h1, h2, h3, h4, zgbc_save_state_size, saveStatePad,
    List.length_cons, List.length_nil]

/-- Decoding a saved blob reproduces every serialized component of the
saved machine (reduced to machine width), grafted onto the loading
machine's unserialized fields. -/
theorem zgbc_load_save (m m' : zgbc_t) (h : SizesWf m') :
    zgbc_load_state m (zgbc_save_state m') =
      {m with core :=
        { m.core with
          regs := normRegs m'.core.regs
          mapper := normMapper m'.core.mapper
          timer := normTimer m'.core.timer
          intr := normIntr m'.core.intr
          joypad := normJoy m'.core.joypad
          ppu := normPpu m'.core.ppu
          apu := normApu m'.core.apu
          cycles := m'.core.cycles % 2 ^ 64
          vram := m'.core.vram
          wram := m'.core.wram
          oam := m'.core.oam
          hram := m'.core.hram }} := by
  obtain ⟨h1, h2, h3, h4⟩ := h
  have htake : (zgbc_save_state m').take zgbc_save_state_size = zgbc_save_state m' :=
    List.take_of_length_le (le_of_eq (zgbc_save_state_length m' ⟨h1, h2, h3, h4⟩))
  simp only [zgbc_load_state, htake]
  simp [zgbc_save_state, List.append_assoc, decRegs_encRegs, decMapper_encMapper,
    decTimer_encTimer, decIntr_encIntr, decJoy_encJoy, decPpu_encPpu,
    decApu_encApu, decN_encN_append, decChunk_append, h1, h2, h3, h4]

theorem normRegs_eq_self (r : CpuRegs) (h : RegsWf r) : normRegs r = r := by
  obtain ⟨h1, h2, h3, h4, h5, h6, h7, h8, h9, h10⟩ := h
  simp [normRegs, Nat.mod_eq_of_lt, h1, h2, h3, h4, h5, h6, h7, h8, h9, h10]

theorem normMapper_eq_self (mp : MapperState) (h : MapperWf mp) : normMapper mp = mp := by
  obtain ⟨h1, h2, h3⟩ := h
  simp [normMapper, Nat.mod_eq_of_lt, h1, h2, h3]

theorem normTimer_eq_self (t : TimerState) (h : TimerWf t) : normTimer t = t := by
  obtain ⟨h1, h2, h3, h4, h5, h6⟩ := h
  simp [normTimer, Nat.mod_eq_of_lt, h1, h2, h3, h4, h5, h6]

theorem normIntr_eq_self (i : IntrState) (h : IntrWf i) : normIntr i = i := by
  obtain ⟨h1, h2⟩ := h
  simp [normIntr, Nat.mod_eq_of_lt, h1, h2]

theorem normJoy_eq_self (j : JoypadState) (h : JoyWf j) : normJoy j = j := by
  obtain ⟨h1, h2⟩ := h
  simp [normJoy, Nat.mod_eq_of_lt, h1, h2]

theorem normPpu_eq_self (p : PpuState) (h : PpuWf p) : normPpu p = p := by
  obtain ⟨h1, h2, h3, h4, h5, h6, h7, h8, h9, h10, h11⟩ := h
  simp [normPpu, Nat.mod_eq_of_lt, h1, h2, h3, h4, h5, h6, h7, h8, h9, h10, h11]

theorem normCh_eq_self (ch : ApuChannel) (h : ChWf ch) : normCh ch = ch := by
  obtain ⟨h1, h2, h3, h4, h5⟩ := h
  simp [normCh, Nat.mod_eq_of_lt, h1, h2, h3, h4, h5]

theorem normApu_eq_self (a : ApuState) (h : ApuWf a) : normApu a = a := by
  obtain ⟨h1, h2, h3, h4, h5⟩ := h
  simp [normApu, normCh_eq_self _ h1, normCh_eq_self _ h2, normCh_eq_self _ h3,
    normCh_eq_self _ h4, Nat.mod_eq_of_lt, h5]

/-- Full round trip: saving and immediately reloading a well-formed
machine is the identity. -/
theorem zgbc_load_save_self (m : zgbc_t) (h : ZgbcWf m) :
    zgbc_load_state m (zgbc_save_state m) = m := by
  obtain ⟨hs, hr, hm, ht, hi, hj, hp, ha, hc⟩ := h
  rw [zgbc_load_save m m hs, normRegs_eq_self _ hr, normMapper_eq_self _ hm,
    normTimer_eq_self _ ht, normIntr_eq_self _ hi, normJoy_eq_self _ hj,
    normPpu_eq_self _ hp, normApu_eq_self _ ha, Nat.mod_eq_of_lt hc]

/-- C1: for every well-formed machine state S, zgbc_load_state applied to
the blob produced by zgbc_save_state(S) reproduces S exactly, so the
subsequent N-instruction execution trace (register values, RAM region
contents, framebuffer contents, audio samples) is identical to running S
directly for the same N instructions. -/
theorem C1_save_load_state_roundtrip_trace (m : zgbc_t) (n : Nat) (h : ZgbcWf m) :
    zgbc_load_state m (zgbc_save_state m) = m ∧
    execTrace n (zgbc_load_state m (zgbc_save_state m)) = execTrace n m := by
  have e := zgbc_load_save_self m h
  exact ⟨e, by rw [e]⟩

/-- Witness for C1 at the concrete freshly created machine. -/
theorem C1_save_load_state_roundtrip_trace_witness :
    ZgbcWf zgbc_new ∧
      (zgbc_load_state zgbc_new (zgbc_save_state zgbc_new) = zgbc_new ∧
       execTrace 2 (zgbc_load_state zgbc_new (zgbc_save_state zgbc_new)) =
         execTrace 2 zgbc_new) :=
  ⟨by
  simp only [ZgbcWf, SizesWf, RegsWf, MapperWf, TimerWf, IntrWf, JoyWf, PpuWf,
    ApuWf, ChWf, zgbc_new, initRegs, initCh, List.length_replicate]
  decide,
   C1_save_load_state_roundtrip_trace zgbc_new 2 (by
  simp only [ZgbcWf, SizesWf, RegsWf, MapperWf, TimerWf, IntrWf, JoyWf, PpuWf,
    ApuWf, ChWf, zgbc_new, initRegs, initCh, List.length_replicate]
  decide)⟩

theorem dispatchIntr_cycles (c : Core) : (dispatchIntr c).2 = 20 := rfl

theorem instrCycles_bounds (op : Nat) :
    4 ≤ instrCycles op ∧ instrCycles op ≤ 255 := by
  unfold instrCycles
  split_ifs <;> omega

theorem execInstr_cycles_bounds (c : Core) :
    4 ≤ (execInstr c).2 ∧ (execInstr c).2 ≤ 255 :=
  instrCycles_bounds (busRead c c.regs.pc)

theorem cpuExec_cycles_cases (c : Core) :
    (cpuExec c).2 = 4 ∨ (cpuExec c).2 = 20 ∨ ∃ op, (cpuExec c).2 = instrCycles op := by
  unfold cpuExec
  dsimp only
  split
  · split
    · split
      · right; left; exact dispatchIntr_cycles _
      · right; right; exact ⟨_, rfl⟩
    · left; rfl
  · split
    · right; left; exact dispatchIntr_cycles _
    · right; right; exact ⟨_, rfl⟩

theorem cpuExec_cycles_bounds (c : Core) :
    4 ≤ (cpuExec c).2 ∧ (cpuExec c).2 ≤ 255 := by
  rcases cpuExec_cycles_cases c with h | h | ⟨op, h⟩ <;> rw [h]
  · omega
  · omega
  · exact instrCycles_bounds op

theorem zgbc_step_cycles (m : zgbc_t) : (zgbc_step m).2 = (cpuExec m.core).2 := by
  rfl

theorem zgbc_step_cycles_bounds (m : zgbc_t) :
    4 ≤ (zgbc_step m).2 ∧ (zgbc_step m).2 ≤ 255 := by
  rw [zgbc_step_cycles]
  exact cpuExec_cycles_bounds m.core

theorem frameGo_zero_budget (f : Nat) (m : zgbc_t) : frameGo f 0 m = m := by
  cases f <;> rfl

/-- The frame loop consumes its whole budget within any fuel of at least
a quarter of the budget: every step costs at least 4 cycles. -/
theorem frameGo_fuel_eq (f1 : Nat) :
    ∀ f2 b m, b ≤ 4 * f1 → b ≤ 4 * f2 → frameGo f1 b m = frameGo f2 b m := by
  induction f1 with
  | zero =>
    intro f2 b m h1 _
    have hb : b = 0 := by omega
    subst hb
    rw [frameGo_zero_budget, frameGo_zero_budget]
  | succ f ih =>
    intro f2 b m h1 h2
    match b, f2 with
    | 0, f2 => rw [frameGo_zero_budget, frameGo_zero_budget]
    | b + 1, 0 => omega
    | b + 1, f2 + 1 =>
      show frameGo f (b + 1 - (zgbc_step m).2) (zgbc_step m).1 =
        frameGo f2 (b + 1 - (zgbc_step m).2) (zgbc_step m).1
      have hc := zgbc_step_cycles_bounds m
      exact ih f2 _ _ (by omega) (by omega)

/-- The budget-countdown frame loop agrees with the cycle-accumulating
stepping loop. -/
theorem stepUntil_frameGo (f : Nat) :
    ∀ t acc m, stepUntil f t acc m = frameGo f (t - acc) m := by
  induction f with
  | zero => intro t acc m; rfl
  | succ f ih =>
    intro t acc m
    by_cases h : t ≤ acc
    · have ht : t - acc = 0 := by omega
      rw [ht, frameGo_zero_budget]
      simp [stepUntil, h]
    · have ht : t - acc = (t - acc - 1) + 1 := by omega
      rw [ht]
      show stepUntil (f + 1) t acc m = frameGo (f + 1) (t - acc - 1 + 1) m
      simp only [stepUntil, h, if_false]
      show stepUntil f t (acc + (zgbc_step m).2) (zgbc_step m).1 =
        frameGo f (t - acc - 1 + 1 - (zgbc_step m).2) (zgbc_step m).1
      rw [ih]
      congr 1
      omega

/-- C2: for every machine state, running exactly 70224 machine cycles by
repeated zgbc_step calls and running a single zgbc_frame call produce
identical final machine states. -/
theorem C2_frame_equals_stepping (m : zgbc_t) :
    zgbc_frame m = runStepsCycles 70224 m := by
  unfold zgbc_frame runStepsCycles
  rw [stepUntil_frameGo]
  exact frameGo_fuel_eq 17556 70224 (70224 - 0) m (by norm_num) (by norm_num)

/-- C10: for every machine state, zgbc_step returns a cycle count that is
nonzero and fits in uint8_t (at most 255), so the fixed 70224-cycle frame
budget is consumed in finitely many steps: the frame loop yields the same
result under any fuel of at least 17556 iterations, hence zgbc_frame
terminates with its budget fully consumed. -/
theorem C10_step_cycles_bounded_frame_terminates (m : zgbc_t) :
    0 < (zgbc_step m).2 ∧ (zgbc_step m).2 ≤ 255 ∧
    ∀ f1 f2 : Nat, 70224 ≤ 4 * f1 → 70224 ≤ 4 * f2 →
      frameGo f1 70224 m = frameGo f2 70224 m := by
  have hb := zgbc_step_cycles_bounds m
  refine ⟨by omega, hb.2, ?_⟩
  intro f1 f2 h1 h2
  exact frameGo_fuel_eq f1 f2 70224 m h1 h2

/-- Witness for C10 at the concrete freshly created machine. -/
theorem C10_step_cycles_bounded_frame_terminates_witness :
    0 < (zgbc_step zgbc_new).2 ∧ (zgbc_step zgbc_new).2 ≤ 255 ∧
      frameGo 17556 70224 zgbc_new = frameGo 17557 70224 zgbc_new :=
  ⟨(C10_step_cycles_bounded_frame_terminates zgbc_new).1,
   (C10_step_cycles_bounded_frame_terminates zgbc_new).2.1,
   (C10_step_cycles_bounded_frame_terminates zgbc_new).2.2 17556 17557
     (by norm_num) (by norm_num)⟩

/-- Loading any blob replaces exactly the serialized components, with
replacement values determined by the blob alone. -/
theorem zgbc_load_state_shape (blob : List Nat) :
    ∃ r mp t i j p a y v w o hh, ∀ m : zgbc_t,
      zgbc_load_state m blob =
        {m with core :=
          { m.core with
            regs := r
            mapper := mp
            timer := t
            intr := i
            joypad := j
            ppu := p
            apu := a
            cycles := y
            vram := v
            wram := w
            oam := o
            hram := hh }} := by
  unfold zgbc_load_state
  rcases h1 : decRegs (blob.take zgbc_save_state_size) with ⟨r, d1⟩
  rcases h2 : decMapper d1 with ⟨mp, d2⟩
  rcases h3 : decTimer d2 with ⟨t, d3⟩
  rcases h4 : decIntr d3 with ⟨i, d4⟩
  rcases h5 : decJoy d4 with ⟨j, d5⟩
  rcases h6 : decPpu d5 with ⟨p, d6⟩
  rcases h7 : decApu d6 with ⟨a, d7⟩
  rcases h8 : decN 8 d7 with ⟨y, d8⟩
  rcases h9 : decChunk 8192 d8 with ⟨v, d9⟩
  rcases h10 : decChunk 8192 d9 with ⟨w, d10⟩
  rcases h11 : decChunk 160 d10 with ⟨o, d11⟩
  rcases h12 : decChunk 127 d11 with ⟨hh, d12⟩
  refine ⟨r, mp, t, i, j, p, a, y, v, w, o, hh, fun m => ?_⟩
  simp only [h1, h2, h3, h4, h5, h6, h7, h8, h9, h10, h11, h12]

/-- C3 counterexample: the claim that a blob whose size differs from
zgbc_save_state_size() is rejected with the machine left unchanged is
false: a 24761-byte buffer (one byte over) is loaded anyway, changing a
fresh machine's register file. -/
theorem C3_wrong_size_not_rejected_counterexample :
    (List.replicate 24761 9).length ≠ zgbc_save_state_size ∧
      zgbc_load_state zgbc_new (List.replicate 24761 9) ≠ zgbc_new := by
  constructor
  · simp only [List.length_replicate, zgbc_save_state_size]
    decide
  · intro h
    have ha : (zgbc_load_state zgbc_new (List.replicate 24761 9)).core.regs.a = 1 := by
      rw [h]
      rfl
    have hb : (zgbc_load_state zgbc_new (List.replicate 24761 9)).core.regs.a = 9 := rfl
    rw [hb] at ha
    exact absurd ha (by decide)

/-- C3 (amended): the C declaration of zgbc_load_state receives only a
data pointer and returns void, so a size mismatch cannot be observed or
rejected; instead the loader consumes exactly the fixed save-state layout
from the front of the accessible bytes (everything past the first
zgbc_save_state_size bytes is ignored) and fully replaces the serialized
machine state, independent of the prior state; unserialized components
(ROM, external RAM, framebuffers, render flags, audio ring) are kept. -/
theorem C3_load_state_fixed_layout_full_replace (m m1 m2 : zgbc_t) (blob : List Nat) :
    zgbc_load_state m blob = zgbc_load_state m (blob.take zgbc_save_state_size) ∧
    serializedOf (zgbc_load_state m1 blob) = serializedOf (zgbc_load_state m2 blob) ∧
    unserializedOf (zgbc_load_state m blob) = unserializedOf m := by
  obtain ⟨r, mp, t, i, j, p, a, y, v, w, o, hh, hshape⟩ := zgbc_load_state_shape blob
  refine ⟨?_, ?_, ?_⟩
  · have : zgbc_load_state m (blob.take zgbc_save_state_size) =
        zgbc_load_state m blob := by
      unfold zgbc_load_state
      rw [List.take_take, min_self]
    rw [this]
  · rw [hshape m1, hshape m2]
    rfl
  · rw [hshape m]
    rfl

/-! ## ROM loading -/
/-- C4: zgbc_load_rom with truncated input (shorter than the 0x150-byte
header area) or an unknown mapper type byte returns false and leaves the
machine (in particular the prior cartridge state) unchanged; with valid
input it returns true and the stored cartridge ROM starts with an exact
copy of the input data. -/
theorem C4_load_rom_copies_and_rejects (m : zgbc_t) (data : List Nat) :
    (data.length < 0x150 ∨ mapperKindOf (data.getD 0x147 0 % 256) = none →
      zgbc_load_rom m data = (false, m)) ∧
    (0x150 ≤ data.length → mapperKindOf (data.getD 0x147 0 % 256) ≠ none →
      (zgbc_load_rom m data).1 = true ∧
        (zgbc_load_rom m data).2.core.cart.rom.take data.length = data) := by
  constructor
  · intro h
    unfold zgbc_load_rom
    split
    · rfl
    · split
      · rfl
      · rcases h with h | h
        · omega
        · simp_all
  · intro h1 h2
    unfold zgbc_load_rom
    split
    · omega
    · split
      · exact absurd (by assumption) h2
      · exact ⟨rfl, List.take_left data _⟩

/-- Witness for C4: the empty input is rejected without mutation; a
minimal 336-byte all-zero image (MBC0 header) loads with its data
copied. -/
theorem C4_load_rom_copies_and_rejects_witness :
    zgbc_load_rom zgbc_new [] = (false, zgbc_new) ∧
      ((zgbc_load_rom zgbc_new (List.replicate 336 0)).1 = true ∧
        (zgbc_load_rom zgbc_new (List.replicate 336 0)).2.core.cart.rom.take 336 =
          List.replicate 336 0) := by
  constructor
  · exact (C4_load_rom_copies_and_rejects zgbc_new []).1 (Or.inl (by decide))
  · have h := (C4_load_rom_copies_and_rejects zgbc_new (List.replicate 336 0)).2
      (by simp only [List.length_replicate]; decide) (by decide)
    simpa only [List.length_replicate] using h

/-- C8: for every machine state and every address in an unmapped or
disabled region, zgbc_read returns the 0xFF sentinel; zgbc_read is a
total function into bytes, so no read fails or raises a host-visible
error. -/
theorem C8_unmapped_reads_sentinel (m : zgbc_t) (addr : Nat)
    (h : UnmappedOrDisabled m addr) :
    zgbc_read m addr = 0xFF := by
  rcases h with ⟨h1, h2⟩ | ⟨h1, h2, h3⟩
  · simp only [zgbc_read, busRead]
    have n1 : ¬(addr % 65536 < 0x4000) := by omega
    have n2 : ¬(addr % 65536 < 0x8000) := by omega
    have n3 : ¬(addr % 65536 < 0xA000) := by omega
    have n4 : ¬(addr % 65536 < 0xC000) := by omega
    have n5 : ¬(addr % 65536 < 0xE000) := by omega
    have n6 : ¬(addr % 65536 < 0xFE00) := by omega
    have n7 : ¬(addr % 65536 < 0xFEA0) := by omega
    have p8 : addr % 65536 < 0xFF00 := by omega
    rw [if_neg n1, if_neg n2, if_neg n3, if_neg n4, if_neg n5, if_neg n6,
      if_neg n7, if_pos p8]
  · simp only [zgbc_read, busRead]
    have m1 : ¬(addr % 65536 < 0x4000) := by omega
    have m2 : ¬(addr % 65536 < 0x8000) := by omega
    have m3 : ¬(addr % 65536 < 0xA000) := by omega
    have m4 : addr % 65536 < 0xC000 := by omega
    rw [if_neg m1, if_neg m2, if_neg m3, if_pos m4]
    rw [if_neg ?_]
    · rintro ⟨hA, hB⟩
      rcases h3 with h3 | h3
      · rw [h3] at hA
        exact Bool.noConfusion hA
      · exact hB h3

/-- Witness for C8 at a concrete machine and address in the prohibited
area. -/
theorem C8_unmapped_reads_sentinel_witness :
    UnmappedOrDisabled zgbc_new 0xFEA0 ∧ zgbc_read zgbc_new 0xFEA0 = 0xFF :=
  ⟨Or.inl (by decide), C8_unmapped_reads_sentinel zgbc_new 0xFEA0 (Or.inl (by decide))⟩

theorem stepN_core (n : Nat) : ∀ m : zgbc_t, (stepN n m).core = coreStepN n m.core := by
  induction n with
  | zero => intro m; rfl
  | succ n ih =>
    intro m
    show (stepN n (zgbc_step m).1).core = coreStepN n (coreStep m.core).1
    rw [ih]
    rfl

theorem stepN_renderAudio (n : Nat) :
    ∀ m : zgbc_t, (stepN n m).renderAudio = m.renderAudio := by
  induction n with
  | zero => intro m; rfl
  | succ n ih =>
    intro m
    show (stepN n (zgbc_step m).1).renderAudio = m.renderAudio
    rw [ih]
    rfl

theorem stepN_ring_off (n : Nat) :
    ∀ m : zgbc_t, m.renderAudio = false → (stepN n m).audioRing = m.audioRing := by
  induction n with
  | zero => intro m _; rfl
  | succ n ih =>
    intro m h
    show (stepN n (zgbc_step m).1).audioRing = m.audioRing
    rw [ih _ (by rw [show (zgbc_step m).1.renderAudio = m.renderAudio from rfl, h])]
    show (if m.renderAudio then pushSamples m.audioRing (coreStep m.core).2.2
      else m.audioRing) = m.audioRing
    rw [h]
    rfl

theorem frameGo_core_congr (f : Nat) :
    ∀ b (m1 m2 : zgbc_t), m1.core = m2.core →
      (frameGo f b m1).core = (frameGo f b m2).core := by
  induction f with
  | zero => intro b m1 m2 h; cases b <;> exact h
  | succ f ih =>
    intro b m1 m2 h
    match b with
    | 0 => exact h
    | b + 1 =>
      show (frameGo f (b + 1 - (zgbc_step m1).2) (zgbc_step m1).1).core =
        (frameGo f (b + 1 - (zgbc_step m2).2) (zgbc_step m2).1).core
      have hc : (zgbc_step m1).2 = (zgbc_step m2).2 := by
        rw [zgbc_step_cycles, zgbc_step_cycles, h]
      have hcore : (zgbc_step m1).1.core = (zgbc_step m2).1.core := by
        show (coreStep m1.core).1 = (coreStep m2.core).1
        rw [h]
      rw [hc]
      exact ih _ _ _ hcore

/-- C9: for every machine state and every run length, executing with
audio rendering disabled yields the same machine core — cycle counter
(frame timing), register-visible APU state, and all other components —
as the identical run with audio enabled; a whole zgbc_frame does too;
and the disabled run emits no audio samples (its ring is untouched). -/
theorem C9_audio_disable_only_suppresses_samples (m : zgbc_t) (n : Nat) :
    (stepN n (zgbc_set_render_audio m false)).core =
      (stepN n (zgbc_set_render_audio m true)).core ∧
    (zgbc_frame (zgbc_set_render_audio m false)).core =
      (zgbc_frame (zgbc_set_render_audio m true)).core ∧
    (stepN n (zgbc_set_render_audio m false)).audioRing = m.audioRing := by
  refine ⟨?_, ?_, ?_⟩
  · rw [stepN_core, stepN_core]
    rfl
  · exact frameGo_core_congr 17556 70224 _ _ rfl
  · exact stepN_ring_off n (zgbc_set_render_audio m false) rfl

theorem mapperWrite_banks (mp : MapperState) (cart : Cart) (a v : Nat)
    (h1 : 0 < cart.romBankCount)
    (h4 : mp.romBank < cart.romBankCount)
    (h5 : mp.ramBank < max 1 cart.ramBankCount) :
    (mapperWrite mp cart a v).romBank < cart.romBankCount ∧
    (mapperWrite mp cart a v).ramBank < max 1 cart.ramBankCount := by
  unfold mapperWrite
  split <;> (try split_ifs) <;>
    refine ⟨?_, ?_⟩ <;>
      first
        | assumption
        | exact Nat.mod_lt _ h1
        | exact Nat.mod_lt _ (Nat.lt_of_lt_of_le Nat.zero_lt_one (le_max_left 1 _))

theorem busWrite_cart (c : Core) (addr v : Nat) :
    (busWrite c addr v).cart = c.cart := rfl

theorem busWrite_extram_length (c : Core) (addr v : Nat) :
    (busWrite c addr v).extram.length = c.extram.length := by
  show (if _ then _ else _ : List Nat).length = c.extram.length
  split
  · exact List.length_set _ _ _
  · rfl

theorem busWrite_mapper_eq (c : Core) (addr v : Nat) :
    (busWrite c addr v).mapper =
      (if addr % 65536 < 0x8000 then
        mapperWrite c.mapper c.cart (addr % 65536) (v % 256)
      else c.mapper) := rfl

theorem busWrite_banks (c : Core) (addr v : Nat)
    (h1 : 0 < c.cart.romBankCount)
    (h4 : c.mapper.romBank < c.cart.romBankCount)
    (h5 : c.mapper.ramBank < max 1 c.cart.ramBankCount) :
    (busWrite c addr v).mapper.romBank < c.cart.romBankCount ∧
    (busWrite c addr v).mapper.ramBank < max 1 c.cart.ramBankCount := by
  rw [busWrite_mapper_eq]
  split
  · exact mapperWrite_banks c.mapper c.cart _ _ h1 h4 h5
  · exact ⟨h4, h5⟩

theorem busWrite_cart_inv (c : Core) (addr v : Nat)
    (h1 : 0 < c.cart.romBankCount)
    (h4 : c.mapper.romBank < c.cart.romBankCount)
    (h5 : c.mapper.ramBank < max 1 c.cart.ramBankCount) :
    (busWrite c addr v).cart = c.cart ∧
    (busWrite c addr v).extram.length = c.extram.length ∧
    (busWrite c addr v).mapper.romBank < c.cart.romBankCount ∧
    (busWrite c addr v).mapper.ramBank < max 1 c.cart.ramBankCount :=
  ⟨busWrite_cart c addr v, busWrite_extram_length c addr v,
    (busWrite_banks c addr v h1 h4 h5).1, (busWrite_banks c addr v h1 h4 h5).2⟩

theorem mapperWrite_mbc1_select (mp : MapperState) (cart : Cart) (a v : Nat)
    (hk : mp.kind = MapperKind.mbc1)
    (ha1 : 0x2000 ≤ a) (ha2 : a < 0x4000) :
    (mapperWrite mp cart a v).romBank =
      (if v % 32 = 0 then 1 else v % 32) % cart.romBankCount := by
  unfold mapperWrite
  simp only [hk]
  rw [if_neg (by omega), if_pos ha2]

/-- C7: with a loaded cartridge, any zgbc_write keeps the stored ROM/RAM
bank indices below the cartridge's actual bank counts (bank-select
values are reduced modulo the bank count, shown explicitly for the MBC1
ROM-bank-select register), so every subsequent banked ROM read and
enabled external-RAM read indexes strictly inside the loaded data. -/
theorem C7_bank_select_wraps_modulo (m : zgbc_t) (addr v : Nat) (h : CartInv m) :
    CartInv (zgbc_write m addr v) ∧
    (∀ a2, 0x4000 ≤ a2 → a2 < 0x8000 →
      (zgbc_write m addr v).core.mapper.romBank * 0x4000 + (a2 - 0x4000) <
        (zgbc_write m addr v).core.cart.rom.length) ∧
    ((zgbc_write m addr v).core.cart.ramBankCount ≠ 0 →
      ∀ a2, 0xA000 ≤ a2 → a2 < 0xC000 →
        (zgbc_write m addr v).core.mapper.ramBank * 0x2000 + (a2 - 0xA000) <
          (zgbc_write m addr v).core.extram.length) ∧
    (m.core.mapper.kind = MapperKind.mbc1 →
      0x2000 ≤ addr % 65536 → addr % 65536 < 0x4000 →
      (zgbc_write m addr v).core.mapper.romBank =
        (if v % 256 % 32 = 0 then 1 else v % 256 % 32) % m.core.cart.romBankCount) := by
  obtain ⟨h1, h2, h3, h4, h5⟩ := h
  have hb := busWrite_cart_inv m.core addr v h1 h4 h5
  have hcart : (zgbc_write m addr v).core.cart = m.core.cart := hb.1
  have hlen : (zgbc_write m addr v).core.extram.length = m.core.extram.length := hb.2.1
  have hrb : (zgbc_write m addr v).core.mapper.romBank < m.core.cart.romBankCount :=
    hb.2.2.1
  have hqb : (zgbc_write m addr v).core.mapper.ramBank <
      max 1 m.core.cart.ramBankCount := hb.2.2.2
  refine ⟨⟨?_, ?_, ?_, ?_, ?_⟩, ?_, ?_, ?_⟩
  · rw [hcart]; exact h1
  · rw [hcart]; exact h2
  · rw [hcart, hlen]; exact h3
  · rw [hcart]; exact hrb
  · rw [hcart]; exact hqb
  · intro a2 hlo hhi
    rw [hcart]
    have : (zgbc_write m addr v).core.mapper.romBank * 0x4000 + (a2 - 0x4000) <
        m.core.cart.romBankCount * 0x4000 := by omega
    omega
  · intro hnz a2 hlo hhi
    rw [hcart] at hnz
    rw [hlen]
    have hmax := max_eq_right (show 1 ≤ m.core.cart.ramBankCount by omega)
    rw [hmax] at hqb
    have hstep : (zgbc_write m addr v).core.mapper.ramBank * 0x2000 + (a2 - 0xA000) <
        m.core.cart.ramBankCount * 0x2000 := by omega
    omega
  · intro hk hlo hhi
    show ((if _ then mapperWrite m.core.mapper m.core.cart _ _
      else m.core.mapper).romBank = _)
    rw [if_pos (by omega)]
    exact mapperWrite_mbc1_select m.core.mapper m.core.cart _ _ hk (by omega) (by omega)

/-- Witness for C7: writing 0xFF to the MBC1 ROM-bank-select register of
a two-bank cartridge stores 31 mod 2 = 1, keeping every banked read in
range. -/
theorem C7_bank_select_wraps_modulo_witness :
    CartInv cartMachine ∧
      (CartInv (zgbc_write cartMachine 0x2000 0xFF) ∧
        (zgbc_write cartMachine 0x2000 0xFF).core.mapper.romBank * 0x4000 +
            (0x7FFF - 0x4000) <
          (zgbc_write cartMachine 0x2000 0xFF).core.cart.rom.length ∧
        (zgbc_write cartMachine 0x2000 0xFF).core.mapper.romBank =
          (if 0xFF % 256 % 32 = 0 then 1 else 0xFF % 256 % 32) %
            cartMachine.core.cart.romBankCount) := by
  have hc : CartInv cartMachine := by
    simp only [CartInv, cartMachine, zgbc_new, List.length_replicate]
    decide
  have h := C7_bank_select_wraps_modulo cartMachine 0x2000 0xFF hc
  exact ⟨hc, h.1, h.2.1 0x7FFF (by decide) (by decide),
    h.2.2.2 (by rfl) (by decide) (by decide)⟩

theorem ppuWriteReg_counters (p : PpuState) (r v : Nat) :
    (ppuWriteReg p r v).ly = p.ly ∧ (ppuWriteReg p r v).dot = p.dot := by
  unfold ppuWriteReg
  split_ifs <;> exact ⟨rfl, rfl⟩

theorem busWrite_ppu_eq (c : Core) (addr v : Nat) :
    (busWrite c addr v).ppu =
      (if 0xFF00 ≤ addr % 65536 ∧ addr % 65536 < 0xFF80 then
        ppuWriteReg c.ppu (addr % 65536 - 0xFF00) (v % 256)
      else c.ppu) := rfl

theorem busWrite_counters (c : Core) (addr v : Nat) :
    (busWrite c addr v).ppu.ly = c.ppu.ly ∧ (busWrite c addr v).ppu.dot = c.ppu.dot := by
  rw [busWrite_ppu_eq]
  split
  · exact ppuWriteReg_counters _ _ _
  · exact ⟨rfl, rfl⟩

theorem busWrite_vram_eq (c : Core) (addr v : Nat) :
    (busWrite c addr v).vram =
      (if 0x8000 ≤ addr % 65536 ∧ addr % 65536 < 0xA000 ∧ c.ppu.mode ≠ 3 then
        c.vram.set (addr % 65536 - 0x8000) (v % 256)
      else c.vram) := rfl

theorem busWrite_wram_eq (c : Core) (addr v : Nat) :
    (busWrite c addr v).wram =
      (if 0xC000 ≤ addr % 65536 ∧ addr % 65536 < 0xE000 then
        c.wram.set (addr % 65536 - 0xC000) (v % 256)
      else if 0xE000 ≤ addr % 65536 ∧ addr % 65536 < 0xFE00 then
        c.wram.set (addr % 65536 - 0xE000) (v % 256)
      else c.wram) := rfl

theorem busWrite_oam_eq (c : Core) (addr v : Nat) :
    (busWrite c addr v).oam =
      (if 0xFE00 ≤ addr % 65536 ∧ addr % 65536 < 0xFEA0 ∧
          ¬(c.ppu.mode = 2 ∨ c.ppu.mode = 3) then
        c.oam.set (addr % 65536 - 0xFE00) (v % 256)
      else c.oam) := rfl

theorem busWrite_hram_eq (c : Core) (addr v : Nat) :
    (busWrite c addr v).hram =
      (if 0xFF80 ≤ addr % 65536 ∧ addr % 65536 < 0xFFFF then
        c.hram.set (addr % 65536 - 0xFF80) (v % 256)
      else c.hram) := rfl

theorem busWrite_sizes (c : Core) (addr v : Nat) :
    (busWrite c addr v).vram.length = c.vram.length ∧
    (busWrite c addr v).wram.length = c.wram.length ∧
    (busWrite c addr v).oam.length = c.oam.length ∧
    (busWrite c addr v).hram.length = c.hram.length := by
  refine ⟨?_, ?_, ?_, ?_⟩
  · rw [busWrite_vram_eq]
    split
    · exact List.length_set _ _ _
    · rfl
  · rw [busWrite_wram_eq]
    split
    · exact List.length_set _ _ _
    · split
      · exact List.length_set _ _ _
      · rfl
  · rw [busWrite_oam_eq]
    split
    · exact List.length_set _ _ _
    · rfl
  · rw [busWrite_hram_eq]
    split
    · exact List.length_set _ _ _
    · rfl

theorem execInstrCore_counters (c : Core) (op : Nat) :
    (execInstrCore c op).ppu.ly = c.ppu.ly ∧ (execInstrCore c op).ppu.dot = c.ppu.dot := by
  unfold execInstrCore
  dsimp only
  split
  · exact busWrite_counters _ _ _
  · exact ⟨rfl, rfl⟩

theorem execInstrCore_sizes (c : Core) (op : Nat) :
    (execInstrCore c op).vram.length = c.vram.length ∧
    (execInstrCore c op).wram.length = c.wram.length ∧
    (execInstrCore c op).oam.length = c.oam.length ∧
    (execInstrCore c op).hram.length = c.hram.length := by
  unfold execInstrCore
  dsimp only
  split
  · exact busWrite_sizes _ _ _
  · exact ⟨rfl, rfl, rfl, rfl⟩

theorem dispatchIntr_counters (c : Core) :
    (dispatchIntr c).1.ppu.ly = c.ppu.ly ∧ (dispatchIntr c).1.ppu.dot = c.ppu.dot := by
  unfold dispatchIntr
  dsimp only
  constructor
  · rw [(busWrite_counters _ _ _).1, (busWrite_counters _ _ _).1]
  · rw [(busWrite_counters _ _ _).2, (busWrite_counters _ _ _).2]

theorem dispatchIntr_sizes (c : Core) :
    (dispatchIntr c).1.vram.length = c.vram.length ∧
    (dispatchIntr c).1.wram.length = c.wram.length ∧
    (dispatchIntr c).1.oam.length = c.oam.length ∧
    (dispatchIntr c).1.hram.length = c.hram.length := by
  unfold dispatchIntr
  dsimp only
  refine ⟨?_, ?_, ?_, ?_⟩
  · rw [(busWrite_sizes _ _ _).1, (busWrite_sizes _ _ _).1]
  · rw [(busWrite_sizes _ _ _).2.1, (busWrite_sizes _ _ _).2.1]
  · rw [(busWrite_sizes _ _ _).2.2.1, (busWrite_sizes _ _ _).2.2.1]
  · rw [(busWrite_sizes _ _ _).2.2.2, (busWrite_sizes _ _ _).2.2.2]

theorem cpuExec_counters (c : Core) :
    (cpuExec c).1.ppu.ly = c.ppu.ly ∧ (cpuExec c).1.ppu.dot = c.ppu.dot := by
  unfold cpuExec
  dsimp only
  split
  · split
    · split
      · exact dispatchIntr_counters _
      · exact execInstrCore_counters _ _
    · exact ⟨rfl, rfl⟩
  · split
    · exact dispatchIntr_counters _
    · exact execInstrCore_counters _ _

theorem cpuExec_sizes (c : Core) :
    (cpuExec c).1.vram.length = c.vram.length ∧
    (cpuExec c).1.wram.length = c.wram.length ∧
    (cpuExec c).1.oam.length = c.oam.length ∧
    (cpuExec c).1.hram.length = c.hram.length := by
  unfold cpuExec
  dsimp only
  split
  · split
    · split
      · exact dispatchIntr_sizes _
      · exact execInstrCore_sizes _ _
    · exact ⟨rfl, rfl, rfl, rfl⟩
  · split
    · exact dispatchIntr_sizes _
    · exact execInstrCore_sizes _ _

theorem machineTick_ly (c : Core) :
    (machineTick c).1.ppu.ly = (ppuCounterStep c.ppu.ly c.ppu.dot).1 := rfl

theorem machineTick_dot (c : Core) :
    (machineTick c).1.ppu.dot = (ppuCounterStep c.ppu.ly c.ppu.dot).2 := rfl

theorem ppuCounterStep_bounds (ly dot : Nat) (h1 : ly ≤ 153) (h2 : dot ≤ 455) :
    (ppuCounterStep ly dot).1 ≤ 153 ∧ (ppuCounterStep ly dot).2 ≤ 455 := by
  unfold ppuCounterStep
  split_ifs <;> constructor <;> dsimp only <;> omega

theorem machineTick_CoreInv (c : Core) (h : CoreInv c) : CoreInv (machineTick c).1 := by
  obtain ⟨h1, h2, h3, h4, h5, h6⟩ := h
  have hb := ppuCounterStep_bounds c.ppu.ly c.ppu.dot h1 h2
  exact ⟨by rw [machineTick_ly]; exact hb.1, by rw [machineTick_dot]; exact hb.2,
    h3, h4, h5, h6⟩

theorem machineTicks_CoreInv (n : Nat) : ∀ c, CoreInv c → CoreInv (machineTicks n c).1 := by
  induction n with
  | zero => intro c h; exact h
  | succ n ih => intro c h; exact ih _ (machineTick_CoreInv c h)

theorem cpuExec_CoreInv (c : Core) (h : CoreInv c) : CoreInv (cpuExec c).1 := by
  obtain ⟨h1, h2, h3, h4, h5, h6⟩ := h
  have hc := cpuExec_counters c
  have hs := cpuExec_sizes c
  exact ⟨by rw [hc.1]; exact h1, by rw [hc.2]; exact h2, by rw [hs.1]; exact h3,
    by rw [hs.2.1]; exact h4, by rw [hs.2.2.1]; exact h5, by rw [hs.2.2.2]; exact h6⟩

theorem coreStep_CoreInv (c : Core) (h : CoreInv c) : CoreInv (coreStep c).1 :=
  machineTicks_CoreInv _ _ (cpuExec_CoreInv c h)

theorem busWrite_CoreInv (c : Core) (addr v : Nat) (h : CoreInv c) :
    CoreInv (busWrite c addr v) := by
  obtain ⟨h1, h2, h3, h4, h5, h6⟩ := h
  have hc := busWrite_counters c addr v
  have hs := busWrite_sizes c addr v
  exact ⟨by rw [hc.1]; exact h1, by rw [hc.2]; exact h2, by rw [hs.1]; exact h3,
    by rw [hs.2.1]; exact h4, by rw [hs.2.2.1]; exact h5, by rw [hs.2.2.2]; exact h6⟩

theorem zgbc_new_MachInv : MachInv zgbc_new := by
  refine ⟨?_, ?_, ?_, ?_, ?_, ?_⟩ <;>
    simp only [zgbc_new, List.length_replicate] <;> decide

theorem load_rom_MachInv (m : zgbc_t) (d : List Nat) (h : MachInv m) :
    MachInv (zgbc_load_rom m d).2 := by
  unfold zgbc_load_rom
  split
  · exact h
  · split
    · exact h
    · exact h

theorem zgbc_step_MachInv (m : zgbc_t) (h : MachInv m) : MachInv (zgbc_step m).1 :=
  coreStep_CoreInv m.core h

theorem frameGo_MachInv (f : Nat) : ∀ b m, MachInv m → MachInv (frameGo f b m) := by
  induction f with
  | zero => intro b m h; exact h
  | succ f ih =>
    intro b m h
    cases b with
    | zero => exact h
    | succ b => exact ih _ _ (zgbc_step_MachInv m h)

theorem zgbc_frame_MachInv (m : zgbc_t) (h : MachInv m) : MachInv (zgbc_frame m) :=
  frameGo_MachInv 17556 70224 m h

theorem run_frames_MachInv (n : Nat) : ∀ m, MachInv m → MachInv (zgbc_run_frames m n) := by
  induction n with
  | zero => intro m h; exact h
  | succ n ih => intro m h; exact ih _ (zgbc_frame_MachInv m h)

theorem load_state_MachInv (m msrc : zgbc_t) (hsrc : MachInv msrc) :
    MachInv (zgbc_load_state m (zgbc_save_state msrc)) := by
  obtain ⟨h1, h2, h3, h4, h5, h6⟩ := hsrc
  rw [zgbc_load_save m msrc ⟨h3, h4, h5, h6⟩]
  refine ⟨?_, ?_, h3, h4, h5, h6⟩
  · show (normPpu msrc.core.ppu).ly ≤ 153
    unfold normPpu
    dsimp only
    omega
  · show (normPpu msrc.core.ppu).dot ≤ 455
    unfold normPpu
    dsimp only
    omega

/-- Every reachable machine state satisfies the machine invariant. -/
theorem reachable_MachInv (m : zgbc_t) (h : Reachable m) : MachInv m := by
  induction h with
  | new => exact zgbc_new_MachInv
  | load_rom m d _ ih => exact load_rom_MachInv m d ih
  | step m _ ih => exact zgbc_step_MachInv m ih
  | frame m _ ih => exact zgbc_frame_MachInv m ih
  | run_frames m n _ ih => exact run_frames_MachInv n m ih
  | write m a v _ ih => exact busWrite_CoreInv m.core a v ih
  | set_input m b _ ih => exact ih
  | set_render_graphics m b _ ih => exact ih
  | set_render_audio m b _ ih => exact ih
  | get_audio m n _ ih => exact ih
  | load_save_data m d _ ih => exact ih
  | load_state m msrc _ _ _ ihsrc => exact load_state_MachInv m msrc ihsrc

/-- C5: in every reachable machine state the current scanline returned
by zgbc_get_ly is in 0-153 (and the dot counter within its 456-cycle
line), and the per-cycle counter law holds: during a line (dot below
455) a machine cycle advances only the dot and leaves LY unchanged, and
on the 456th cycle of a line the dot wraps to 0 and LY increments by
one, wrapping from 153 back to 0 — so LY cycles through 0-153
monotonically exactly once per frame. -/
theorem C5_ly_range_and_increment (m : zgbc_t) (h : Reachable m) :
    zgbc_get_ly m ≤ 153 ∧ m.core.ppu.dot ≤ 455 ∧
    (m.core.ppu.dot < 455 →
      (machineTick m.core).1.ppu.ly = m.core.ppu.ly ∧
      (machineTick m.core).1.ppu.dot = m.core.ppu.dot + 1) ∧
    (m.core.ppu.dot = 455 →
      (machineTick m.core).1.ppu.dot = 0 ∧
      (machineTick m.core).1.ppu.ly =
        (if m.core.ppu.ly = 153 then 0 else m.core.ppu.ly + 1)) := by
  obtain ⟨h1, h2, _, _, _, _⟩ := reachable_MachInv m h
  refine ⟨?_, h2, ?_, ?_⟩
  · show m.core.ppu.ly % 256 ≤ 153
    omega
  · intro hd
    rw [machineTick_ly, machineTick_dot]
    unfold ppuCounterStep
    rw [if_pos hd]
    exact ⟨rfl, rfl⟩
  · intro hd
    rw [machineTick_ly, machineTick_dot]
    unfold ppuCounterStep
    have hnlt : ¬(m.core.ppu.dot < 455) := by omega
    rw [if_neg hnlt]
    refine ⟨rfl, ?_⟩
    show (if 153 ≤ m.core.ppu.ly then 0 else m.core.ppu.ly + 1) = _
    split_ifs <;> omega

/-- Witness for C5 at the freshly created machine. -/
theorem C5_ly_range_and_increment_witness :
    zgbc_get_ly zgbc_new ≤ 153 ∧ zgbc_new.core.ppu.dot ≤ 455 ∧
      (zgbc_new.core.ppu.dot < 455 →
        (machineTick zgbc_new.core).1.ppu.ly = zgbc_new.core.ppu.ly ∧
        (machineTick zgbc_new.core).1.ppu.dot = zgbc_new.core.ppu.dot + 1) ∧
      (zgbc_new.core.ppu.dot = 455 →
        (machineTick zgbc_new.core).1.ppu.dot = 0 ∧
        (machineTick zgbc_new.core).1.ppu.ly =
          (if zgbc_new.core.ppu.ly = 153 then 0 else zgbc_new.core.ppu.ly + 1)) :=
  C5_ly_range_and_increment zgbc_new Reachable.new

/-! ## VBlank request timing -/
theorem tickN_succ (n : Nat) : ∀ c, tickN (n + 1) c = (machineTick (tickN n c)).1 := by
  induction n with
  | zero => intro c; rfl
  | succ n ih =>
    intro c
    show tickN (n + 1) (machineTick c).1 = (machineTick (tickN (n + 1) c)).1
    rw [ih ((machineTick c).1)]
    rfl

/-- Closed form of the LY/dot counters along a pure machine-cycle trace
from a frame boundary: after k cycles the PPU sits at line k / 456,
dot k mod 456. -/
theorem tickN_counters (k : Nat) : ∀ c : Core, k < 70224 → c.ppu.ly = 0 → c.ppu.dot = 0 →
    (tickN k c).ppu.ly = k / 456 ∧ (tickN k c).ppu.dot = k % 456 := by
  induction k with
  | zero =>
    intro c _ h0 hd
    exact ⟨h0, hd⟩
  | succ k ih =>
    intro c hk h0 hd
    obtain ⟨hly, hdot⟩ := ih c (by omega) h0 hd
    rw [tickN_succ, machineTick_ly, machineTick_dot, hly, hdot]
    unfold ppuCounterStep
    by_cases hlt : k % 456 < 455
    · rw [if_pos hlt]
      constructor
      · show k / 456 = (k + 1) / 456
        omega
      · show k % 456 + 1 = (k + 1) % 456
        omega
    · rw [if_neg hlt]
      constructor
      · show (if 153 ≤ k / 456 then 0 else k / 456 + 1) = (k + 1) / 456
        split_ifs <;> omega
      · show (0 : Nat) = (k + 1) % 456
        omega

theorem or_one_mod32_bit0 (x : Nat) : ((x ||| 1) % 32).testBit 0 = true := by
  rw [show (32 : Nat) = 2 ^ 5 from rfl, Nat.testBit_mod_two_pow, Nat.testBit_lor]
  simp [show Nat.testBit 1 0 = true from rfl]

theorem or_four_mod32_bit0 (x : Nat) : ((x ||| 4) % 32).testBit 0 = x.testBit 0 := by
  rw [show (32 : Nat) = 2 ^ 5 from rfl, Nat.testBit_mod_two_pow, Nat.testBit_lor]
  simp [show Nat.testBit 4 0 = false from rfl]

theorem ppuTick_iflag (c : Core) :
    (ppuTick c).intr.iflag =
      (if c.ppu.dot = 455 ∧ c.ppu.ly = 143 then (c.intr.iflag ||| 1) % 32
       else c.intr.iflag) := by
  show (if c.ppu.dot = 455 ∧ c.ppu.ly = 143 then
      {c.intr with iflag := (c.intr.iflag ||| 1) % 32} else c.intr).iflag = _
  split <;> rfl

theorem timerTick_iflag (c : Core) :
    (timerTick c).intr.iflag =
      (if timaOverflows c.timer then (c.intr.iflag ||| 4) % 32
       else c.intr.iflag) := by
  show (if timaOverflows c.timer then
      {c.intr with iflag := (c.intr.iflag ||| 4) % 32} else c.intr).iflag = _
  split <;> rfl

theorem machineTick_iflag (c : Core) :
    (machineTick c).1.intr.iflag = (ppuTick (timerTick c)).intr.iflag := rfl

/-- One machine cycle sets the VBlank bit of IF exactly when the PPU is
at the VBlank edge; otherwise that bit is carried through unchanged
(the timer may only touch its own bit). -/
theorem machineTick_vblank_bit (c : Core) :
    ((machineTick c).1.intr.iflag.testBit 0 = true ↔
      (c.intr.iflag.testBit 0 = true ∨ PpuVblankEdge c)) := by
  rw [machineTick_iflag, ppuTick_iflag]
  have hppu : (timerTick c).ppu = c.ppu := rfl
  rw [hppu, timerTick_iflag]
  by_cases h1 : c.ppu.dot = 455 ∧ c.ppu.ly = 143
  · rw [if_pos h1]
    by_cases h2 : timaOverflows c.timer
    · rw [if_pos h2, or_one_mod32_bit0]
      simp [PpuVblankEdge, h1]
    · rw [if_neg h2, or_one_mod32_bit0]
      simp [PpuVblankEdge, h1]
  · rw [if_neg h1]
    have hedge : ¬PpuVblankEdge c := h1
    by_cases h2 : timaOverflows c.timer
    · rw [if_pos h2, or_four_mod32_bit0]
      simp [hedge]
    · rw [if_neg h2]
      simp [hedge]

/-- C6: along the machine-cycle trace of a frame started at the LY = 0,
dot = 0 boundary, the PPU requests the VBlank interrupt (sets IF bit 0)
on exactly one of the frame's 70224 cycles: the cycle completing line
143, where LY reaches 144 and mode 1 is entered; on every other cycle
the VBlank bit is carried through unchanged, and CPU work between
cycles never moves the LY/dot frame position. -/
theorem C6_vblank_once_per_frame (m : zgbc_t) (k : Nat)
    (h0 : m.core.ppu.ly = 0) (hd : m.core.ppu.dot = 0) (hk : k < 70224) :
    (PpuVblankEdge (tickN k m.core) ↔ k = 143 * 456 + 455) ∧
    ((machineTick (tickN k m.core)).1.intr.iflag.testBit 0 = true ↔
      ((tickN k m.core).intr.iflag.testBit 0 = true ∨
        PpuVblankEdge (tickN k m.core))) ∧
    (cpuExec (tickN k m.core)).1.ppu.ly = (tickN k m.core).ppu.ly ∧
    (cpuExec (tickN k m.core)).1.ppu.dot = (tickN k m.core).ppu.dot := by
  obtain ⟨hly, hdot⟩ := tickN_counters k m.core hk h0 hd
  refine ⟨?_, machineTick_vblank_bit _, (cpuExec_counters _).1, (cpuExec_counters _).2⟩
  unfold PpuVblankEdge
  rw [hly, hdot]
  omega

/-- Witness for C6 at the freshly created machine and the cycle that
completes line 143 (the VBlank edge). -/
theorem C6_vblank_once_per_frame_witness :
    (PpuVblankEdge (tickN 65663 zgbc_new.core) ↔ 65663 = 143 * 456 + 455) ∧
      ((machineTick (tickN 65663 zgbc_new.core)).1.intr.iflag.testBit 0 = true ↔
        ((tickN 65663 zgbc_new.core).intr.iflag.testBit 0 = true ∨
          PpuVblankEdge (tickN 65663 zgbc_new.core))) ∧
      (cpuExec (tickN 65663 zgbc_new.core)).1.ppu.ly =
        (tickN 65663 zgbc_new.core).ppu.ly ∧
      (cpuExec (tickN 65663 zgbc_new.core)).1.ppu.dot =
        (tickN 65663 zgbc_new.core).ppu.dot :=
  C6_vblank_once_per_frame zgbc_new 65663 rfl rfl (by decide)

end Zgbc
